import Mathlib

/-!
Verification development for the Spyfall green-agent game orchestrator
(`src/green/game_env.py`, with the sibling `src/game_env.py` variant where it
differs). The Python code is shallowly embedded: pure helpers become Lean
functions on `String`/`List Char`, the JSON layer (`json.loads`/`json.dumps`,
restricted to the fragment the program exercises) is modelled by an executable
parser and printer, pydantic model validation becomes boolean validators, and
the stateful game loop becomes explicit state passing in an `Except` monad
whose error constructors stand for the Python exceptions that the code lets
escape. The external `Messenger` collaborator is not part of the sources; it
is modelled from the spec (section 6) as a call that either returns a reply
string or fails with a `TransportError`.
-/

namespace Spyfall

/-! ## Python string primitives

`str.strip`, `str.lower`, `str.startswith`/`endswith`, `str.find` and slicing
are modelled on `List Char`. The whitespace set is the ASCII part of Python's
whitespace (space, tab, newline, carriage return, vertical tab, form feed);
non-ASCII whitespace and non-ASCII lowercasing do not occur in any input the
claims touch. -/

def pyWsChar (c : Char) : Bool :=
  c = ' ' || c = '\t' || c = '\n' || c = '\r' || c = '\x0b' || c = '\x0c'

def stripL (cs : List Char) : List Char :=
  ((cs.dropWhile pyWsChar).reverse.dropWhile pyWsChar).reverse

def pyStrip (s : String) : String :=
  String.mk (stripL s.data)

def pyLower (s : String) : String :=
  String.mk (s.data.map Char.toLower)

/-- The backtick character, written via its code point. -/
def btick : Char := Char.ofNat 0x60

/-- The three-character markdown fence marker. -/
def fenceMarker : List Char := [btick, btick, btick]

def lcurl : Char := Char.ofNat 0x7b

def rcurl : Char := Char.ofNat 0x7d

/-! ## JSON values

The value produced by `json.loads`. Objects are association lists in Python
dict insertion order; numbers keep their raw token (no claim inspects a
numeric payload). -/

inductive Json where
  | null
  | bool (b : Bool)
  | num (raw : String)
  | str (s : String)
  | arr (items : List Json)
  | obj (fields : List (String × Json))

/-- Python dict insert: replace the value in place if the key exists,
otherwise append. -/
def dictInsert (kvs : List (String × Json)) (k : String) (v : Json) :
    List (String × Json) :=
  if kvs.any (fun p => p.1 == k) then
    kvs.map (fun p => if p.1 == k then (k, v) else p)
  else
    kvs ++ [(k, v)]

/-- Python `dict.get` on the decoded object. -/
def jlookup (kvs : List (String × Json)) (k : String) : Option Json :=
  (kvs.find? (fun p => p.1 == k)).map (fun p => p.2)

/-! ## JSON decoding (`json.loads`)

A recursive-descent parser over `List Char` for the JSON grammar: objects,
arrays, strings with escapes (including `\uXXXX` and UTF-16 surrogate pairs),
numbers, `true`/`false`/`null`.  A fuel parameter bounds container nesting;
`loads` supplies the input length, which always suffices since every container
consumes a character. A lone surrogate escape is rejected (Lean strings cannot
hold lone surrogates); no input used in this development contains one. -/

def jsonWs (c : Char) : Bool :=
  c = ' ' || c = '\t' || c = '\n' || c = '\r'

def skipWs (cs : List Char) : List Char :=
  cs.dropWhile jsonWs

def hexVal (c : Char) : Option Nat :=
  if '0' ≤ c ∧ c ≤ '9' then some (c.toNat - '0'.toNat)
  else if 'a' ≤ c ∧ c ≤ 'f' then some (c.toNat - 'a'.toNat + 10)
  else if 'A' ≤ c ∧ c ≤ 'F' then some (c.toNat - 'A'.toNat + 10)
  else none

/-- Code point of a JSON short escape (`\n`, `\t`, ...). -/
def escCode (e : Char) : Option Nat :=
  if e = '"' then some 0x22
  else if e = '\\' then some 0x5c
  else if e = '/' then some 0x2f
  else if e = 'n' then some 10
  else if e = 't' then some 9
  else if e = 'r' then some 13
  else if e = 'b' then some 8
  else if e = 'f' then some 12
  else none

/-- First stage of string scanning: split the input at the first unescaped
quote, keeping every `\x` pair intact; returns the raw span and the rest of
the input after the closing quote. The flag records that the previous
character was a backslash whose partner has not been consumed yet. -/
def takeRawM : Bool → List Char → Option (List Char × List Char)
  | false, [] => none
  | true, [] => none
  | false, c :: rest =>
    if c = '"' then some ([], rest)
    else if c = '\\' then (takeRawM true rest).map (fun p => (c :: p.1, p.2))
    else (takeRawM false rest).map (fun p => (c :: p.1, p.2))
  | true, e :: rest => (takeRawM false rest).map (fun p => (e :: p.1, p.2))

def takeRaw (cs : List Char) : Option (List Char × List Char) :=
  takeRawM false cs

/-- State of the escape scanner: plain text, just after a backslash, or
inside a `\uXXXX` escape with `k` hex digits still to read and `acc` the
value read so far. -/
inductive ScanMode where
  | normal
  | esc
  | hex (k : Nat) (acc : Nat)

/-- Second stage: decode the escapes of a raw span into UTF-16-style code
units (a `\uXXXX` escape contributes its 16-bit value, everything else its
code point). Raw control characters are rejected as in `json.loads`. -/
def unitsOf : ScanMode → List Char → Option (List Nat)
  | ScanMode.normal, [] => some []
  | ScanMode.esc, [] => none
  | ScanMode.hex _ _, [] => none
  | ScanMode.normal, c :: rest =>
    if c = '\\' then unitsOf ScanMode.esc rest
    else if c.toNat < 0x20 then none
    else (unitsOf ScanMode.normal rest).map (fun l => c.toNat :: l)
  | ScanMode.esc, e :: rest =>
    if e = 'u' then unitsOf (ScanMode.hex 4 0) rest
    else
      match escCode e with
      | none => none
      | some n => (unitsOf ScanMode.normal rest).map (fun l => n :: l)
  | ScanMode.hex k acc, c :: rest =>
    match hexVal c with
    | none => none
    | some d =>
      if k = 1 then (unitsOf ScanMode.normal rest).map (fun l => (acc * 16 + d) :: l)
      else unitsOf (ScanMode.hex (k - 1) (acc * 16 + d)) rest

/-- Third stage: combine UTF-16 surrogate pairs into code points. A lone
surrogate is rejected (Python would keep it, but a Lean `String` cannot hold
one; no input in this development contains a lone surrogate escape). -/
def combineUnitsM : Option Nat → List Nat → Option (List Char)
  | none, [] => some []
  | some _, [] => none
  | none, n :: rest =>
    if 0xd800 ≤ n ∧ n < 0xdc00 then combineUnitsM (some n) rest
    else if 0xdc00 ≤ n ∧ n < 0xe000 then none
    else (combineUnitsM none rest).map (fun l => Char.ofNat n :: l)
  | some h, m :: rest =>
    if 0xdc00 ≤ m ∧ m < 0xe000 then
      (combineUnitsM none rest).map (fun l =>
        Char.ofNat (0x10000 + (h - 0xd800) * 0x400 + (m - 0xdc00)) :: l)
    else none

def combineUnits (units : List Nat) : Option (List Char) :=
  combineUnitsM none units

/-- The UTF-16 code units of one character (used to state the encode/decode
round trip). -/
def unitsChar (c : Char) : List Nat :=
  if c.toNat < 0x10000 then [c.toNat]
  else [0xd800 + (c.toNat - 0x10000) / 0x400, 0xdc00 + (c.toNat - 0x10000) % 0x400]

/-- The UTF-16 code units of a character list. -/
def unitsList (l : List Char) : List Nat :=
  (l.map unitsChar).flatten

/-- Body of a JSON string after the opening quote; returns the decoded
characters and the remaining input after the closing quote. -/
def parseStrBody (cs : List Char) : Option (List Char × List Char) :=
  match takeRaw cs with
  | none => none
  | some (raw, rest) =>
    match unitsOf ScanMode.normal raw with
    | none => none
    | some units => (combineUnits units).map (fun l => (l, rest))

def isDigitChar (c : Char) : Bool := '0' ≤ c && c ≤ '9'

/-- JSON number token: `-? int frac? exp?`; the raw token is kept. -/
def parseNumber (cs : List Char) : Option (Json × List Char) :=
  let (sign, cs1) := match cs with
    | '-' :: r => (['-'], r)
    | _ => ([], cs)
  match cs1 with
  | [] => none
  | c :: _ =>
    if ¬ isDigitChar c then none
    else
      let (intPart, cs2) :=
        if c = '0' then ([c], cs1.drop 1)
        else (cs1.takeWhile isDigitChar, cs1.dropWhile isDigitChar)
      let (fracPart, cs3) := match cs2 with
        | '.' :: r =>
          let ds := r.takeWhile isDigitChar
          if ds.isEmpty then ([], cs2) else ('.' :: ds, r.dropWhile isDigitChar)
        | _ => ([], cs2)
      let badFrac : Bool := match cs2 with
        | '.' :: r => (r.takeWhile isDigitChar).isEmpty
        | _ => false
      let (expPart, cs4) := match cs3 with
        | e :: r =>
          if e = 'e' ∨ e = 'E' then
            let (sgn, r2) := match r with
              | s :: r2 => if s = '+' ∨ s = '-' then ([s], r2) else ([], r)
              | [] => ([], r)
            let ds := r2.takeWhile isDigitChar
            if ds.isEmpty then ([], cs3) else (e :: (sgn ++ ds), r2.dropWhile isDigitChar)
          else ([], cs3)
        | [] => ([], cs3)
      let badExp : Bool := match cs3 with
        | e :: r =>
          if e = 'e' ∨ e = 'E' then
            (match r with
              | s :: r2 => if s = '+' ∨ s = '-' then (r2.takeWhile isDigitChar).isEmpty
                           else (r.takeWhile isDigitChar).isEmpty
              | [] => true)
          else false
        | [] => false
      if badFrac ∨ badExp then none
      else some (Json.num (String.mk (sign ++ intPart ++ fracPart ++ expPart)), cs4)

/-- Members of a JSON object after the opening brace (input already known not
to start with the closing brace). `steps` bounds the member count; the value
of each member is parsed by `pv`. -/
def parseMembersF (pv : List Char → Option (Json × List Char)) :
    Nat → List Char → List (String × Json) →
    Option (List (String × Json) × List Char)
  | 0, _, _ => none
  | steps + 1, cs, acc =>
    match skipWs cs with
    | '"' :: rest =>
      match parseStrBody rest with
      | none => none
      | some (key, rest2) =>
        match skipWs rest2 with
        | ':' :: rest3 =>
          match pv rest3 with
          | none => none
          | some (v, rest4) =>
            let acc' := dictInsert acc (String.mk key) v
            match skipWs rest4 with
            | ',' :: rest5 => parseMembersF pv steps rest5 acc'
            | c :: rest5 => if c = rcurl then some (acc', rest5) else none
            | [] => none
        | _ => none
    | _ => none

/-- Items of a JSON array after the opening bracket (input already known not
to start with the closing bracket). -/
def parseItemsF (pv : List Char → Option (Json × List Char)) :
    Nat → List Char → List Json → Option (List Json × List Char)
  | 0, _, _ => none
  | steps + 1, cs, acc =>
    match pv cs with
    | none => none
    | some (v, rest) =>
      match skipWs rest with
      | ',' :: rest2 => parseItemsF pv steps rest2 (acc ++ [v])
      | ']' :: rest2 => some (acc ++ [v], rest2)
      | _ => none

/-- One layer of the JSON value grammar; `inner` parses nested container
members. -/
def parseStep (inner : List Char → Option (Json × List Char)) (cs : List Char) :
    Option (Json × List Char) :=
  match skipWs cs with
  | [] => none
  | c :: rest =>
    if c = '"' then
      (parseStrBody rest).map (fun p => (Json.str (String.mk p.1), p.2))
    else if c = lcurl then
      match skipWs rest with
      | c2 :: rest2 =>
        if c2 = rcurl then some (Json.obj [], rest2)
        else
          (parseMembersF inner ((skipWs rest).length + 1) (skipWs rest) []).map
            (fun p => (Json.obj p.1, p.2))
      | [] => none
    else if c = '[' then
      match skipWs rest with
      | ']' :: rest2 => some (Json.arr [], rest2)
      | _ =>
        (parseItemsF inner ((skipWs rest).length + 1) (skipWs rest) []).map
          (fun p => (Json.arr p.1, p.2))
    else
      match skipWs cs with
      | 't' :: 'r' :: 'u' :: 'e' :: r => some (Json.bool true, r)
      | 'f' :: 'a' :: 'l' :: 's' :: 'e' :: r => some (Json.bool false, r)
      | 'n' :: 'u' :: 'l' :: 'l' :: r => some (Json.null, r)
      | cs' => parseNumber cs'

/-- JSON value with container nesting bounded by `fuel`. -/
def parseValue : Nat → List Char → Option (Json × List Char)
  | 0 => parseStep (fun _ => none)
  | fuel + 1 => parseStep (parseValue fuel)

/-- `json.loads`: parse a complete document, allowing trailing whitespace
only. -/
def loads (s : String) : Option Json :=
  match parseValue s.data.length s.data with
  | some (j, rest) => if (skipWs rest).isEmpty then some j else none
  | none => none

/-! ## JSON encoding (`json.dumps` with default options)

Only what the program serializes is needed: strings, with the default
`ensure_ascii=True` escaping (short escapes for the usual controls, `\uXXXX`
with lowercase hex for other controls and all non-ASCII code points, UTF-16
surrogate pairs above `0xFFFF`), assembled into the two fixed action
objects with the default `", "` / `": "` separators. -/

def hexDigit (n : Nat) : Char :=
  if n < 10 then Char.ofNat ('0'.toNat + n) else Char.ofNat ('a'.toNat + n - 10)

def encode4 (n : Nat) : List Char :=
  [hexDigit (n / 4096 % 16), hexDigit (n / 256 % 16), hexDigit (n / 16 % 16),
   hexDigit (n % 16)]

def escapeChar (c : Char) : List Char :=
  if c = '"' then ['\\', '"']
  else if c = '\\' then ['\\', '\\']
  else if c = '\n' then ['\\', 'n']
  else if c = '\r' then ['\\', 'r']
  else if c = '\t' then ['\\', 't']
  else if c.toNat = 8 then ['\\', 'b']
  else if c.toNat = 12 then ['\\', 'f']
  else if 0x20 ≤ c.toNat ∧ c.toNat < 0x7f then [c]
  else if c.toNat < 0x10000 then '\\' :: 'u' :: encode4 c.toNat
  else
    '\\' :: 'u' :: encode4 (0xd800 + (c.toNat - 0x10000) / 0x400) ++
      '\\' :: 'u' :: encode4 (0xdc00 + (c.toNat - 0x10000) % 0x400)

def escapeList (l : List Char) : List Char :=
  (l.map escapeChar).flatten

/-- `json.dumps` of a string value. -/
def dumpStrChars (s : String) : List Char :=
  '"' :: escapeList s.data ++ ['"']

/-- `dumpStrChars s ++ t` with the constructors exposed: the shape in which
the round-trip lemmas consume a serialized string. -/
def strChars (s : String) (t : List Char) : List Char :=
  '"' :: (escapeList s.data ++ '"' :: t)

/-- One `"key": "value"` member as `json.dumps` prints it. -/
def dumpMemberChars (k v : String) : List Char :=
  dumpStrChars k ++ ':' :: ' ' :: dumpStrChars v

/-- A `", "`-separated run of members as `json.dumps` prints it. -/
def dumpFieldsChars : List (String × String) → List Char
  | [] => []
  | [(k, v)] => dumpMemberChars k v
  | (k, v) :: rest => dumpMemberChars k v ++ ',' :: ' ' :: dumpFieldsChars rest

/-- `json.dumps` of a flat object whose values are all strings. -/
def dumpObjChars (fields : List (String × String)) : List Char :=
  lcurl :: dumpFieldsChars fields ++ [rcurl]

/-- Wire text of an `ask_question` action. -/
def dumpAsk (target question : String) : String :=
  String.mk (dumpObjChars
    [("action", "ask_question"), ("target", target), ("question", question)])

/-- Wire text of a `guess_location` action. -/
def dumpGuess (guess : String) : String :=
  String.mk (dumpObjChars [("action", "guess_location"), ("location_guess", guess)])

/-- The decoded object an `ask_question` wire text denotes. -/
def askJson (target question : String) : Json :=
  Json.obj [("action", Json.str "ask_question"), ("target", Json.str target),
    ("question", Json.str question)]

/-- The decoded object a `guess_location` wire text denotes. -/
def guessJson (guess : String) : Json :=
  Json.obj [("action", Json.str "guess_location"), ("location_guess", Json.str guess)]

/-- Wrap a wire text in a markdown code fence: a leading triple-backtick line
and a trailing triple-backtick line. -/
def fenceWrap (s : String) : String :=
  "```\n" ++ s ++ "\n```"

/-! ## `extract_json_from_response` and `parse_action`
(`src/green/game_env.py` lines 93-160) -/

def extractL (cs0 : List Char) : List Char :=
  let text := stripL cs0
  if fenceMarker.isPrefixOf text then
    let text1 := match text.findIdx? (fun c => c = '\n') with
      | some i => text.drop (i + 1)
      | none => text
    let text2 := if fenceMarker.isSuffixOf text1 then
        text1.take (text1.length - 3)
      else text1
    stripL text2
  else stripL text

def extract_json_from_response (response : String) : String :=
  String.mk (extractL response.data)

/-- pydantic `AskQuestionAction.model_validate`: requires the literal tag and
`target`/`question` present as strings (any string, the empty string
included); extra keys are ignored. -/
def validateAskQuestion : Json → Bool
  | Json.obj kvs =>
    (match jlookup kvs "action" with
      | some (Json.str s) => s == "ask_question"
      | _ => false)
    && (match jlookup kvs "target" with
      | some (Json.str _) => true
      | _ => false)
    && (match jlookup kvs "question" with
      | some (Json.str _) => true
      | _ => false)
  | _ => false

/-- pydantic `GuessLocationAction.model_validate`. -/
def validateGuessLocation : Json → Bool
  | Json.obj kvs =>
    (match jlookup kvs "action" with
      | some (Json.str s) => s == "guess_location"
      | _ => false)
    && (match jlookup kvs "location_guess" with
      | some (Json.str _) => true
      | _ => false)
  | _ => false

/-- Errors that escape the embedded Python code: a messenger
`TransportError` (modelled from the spec), an `AttributeError` from calling
`.get`/`.lower` on a non-dict/non-string, an `IndexError` from `[0]` on an
empty list. -/
inductive RunErr where
  | transport
  | attrError
  | indexError
deriving DecidableEq

/-- `parse_action(response, is_spy)`. `Except.ok none` is the `return None`
path (a caught `json.JSONDecodeError`/`ValidationError`); `.ok (some d)`
returns the decoded dict; `.error .attrError` is the uncaught
`AttributeError` raised by `action_dict.get` when the decoded JSON is not an
object and `is_spy` is true. -/
def parse_action (response : String) (is_spy : Bool) : Except RunErr (Option Json) :=
  match loads (extract_json_from_response response) with
  | none => Except.ok none
  | some j =>
    if is_spy then
      match j with
      | Json.obj kvs =>
        match jlookup kvs "action" with
        | some (Json.str "ask_question") =>
          if validateAskQuestion j then Except.ok (some j) else Except.ok none
        | some (Json.str "guess_location") =>
          if validateGuessLocation j then Except.ok (some j) else Except.ok none
        | _ => Except.ok none
      | _ => Except.error RunErr.attrError
    else
      if validateAskQuestion j then Except.ok (some j) else Except.ok none

/-! ## The game environment (`SpyfallEnv`)

`self.participants` is embedded as its ordered key list (dict keys, unique by
construction — theorems carry a `Nodup` hypothesis where uniqueness matters);
`assigned_roles` as an ordered association list. The mutable state
`self.round` / `self.game_over` / `self.spy_win` is an explicit record. Each
`messenger.talk_to_agent` call is answered by an oracle — modelled from the
spec: the messenger either returns the reply string or fails with a
`TransportError` — except broadcast fan-out, whose replies and failures the
code swallows via `asyncio.gather(..., return_exceptions=True)`. Observable
messenger traffic is recorded as a list of events. -/

/-- Replies of the external agents, one component per kind of point-to-point
messenger call the environment makes. Modelled from the spec: the `Messenger`
collaborator is not among the sources; per spec section 6 a call returns the
response text or fails with a `TransportError`. -/
structure Oracle where
  /-- Reply to the round-0 initialization prompt of a player. -/
  initResp : String → Except RunErr String
  /-- Reply of a player to their action prompt in a given round. -/
  actionResp : Nat → String → Except RunErr String
  /-- Reply of `target` to `asker`'s `question` (the `answer_turn` call). -/
  answerResp : String → String → String → Except RunErr String
  /-- Reply of a voter to the vote prompt. -/
  voteResp : String → Except RunErr String

structure Env where
  participants : List String
  location : String
  maxRounds : Nat
  oracle : Oracle

/-- The mutable game state (`self.round`, `self.game_over`, `self.spy_win`). -/
structure St where
  round : Nat
  gameOver : Bool
  spyWin : Bool
deriving DecidableEq

/-- Observable messenger traffic. Message wording is abstracted to the kind of
message plus the data interpolated into it. -/
inductive Event where
  | initSent (name : String)
  | turn (name : String)
  | qaBroadcast (asker target question answer : String)
  | correctGuessBroadcast (actor guess : String)
  | incorrectGuessBroadcast (actor guess location : String)
  | votePrompt (voter : String) (choices : List String)
  | resultBroadcast (msg : String)
deriving DecidableEq

/-- `assign_roles` (lines 193-200): `random.choice` picks the element at some
index `choice` of the key list; every seed realizes some valid index. -/
def assign_roles (participants : List String) (choice : Nat) :
    List (String × String) :=
  let spy_participant := participants.getD choice ""
  participants.map (fun name =>
    (name, if name == spy_participant then "spy" else "non-spy"))

/-- `_get_spy` (lines 202-204): `[...][0]` raises `IndexError` when no entry
has the spy role. -/
def get_spy (assigned_roles : List (String × String)) : Except RunErr String :=
  match (assigned_roles.filter (fun p => p.2 == "spy")).map (fun p => p.1) with
  | [] => Except.error RunErr.indexError
  | s :: _ => Except.ok s

/-- `_get_non_spies` (lines 206-208). -/
def get_non_spies (assigned_roles : List (String × String)) : List String :=
  (assigned_roles.filter (fun p => p.2 == "non-spy")).map (fun p => p.1)

/-- `_get_other_players` (lines 210-212). -/
def get_other_players (participants : List String) (exclude_name : String) :
    List String :=
  participants.filter (fun name => name != exclude_name)

/-- Canonical game-result record (`_build_game_result`, lines 286-299). -/
structure GameResult where
  winner : String
  winner_role : String
  participants : List String
  end_method : String
  spy : String
  voted_as_spy : Option String
  votes : Option (List (String × Nat))
  result : String
deriving DecidableEq

def build_game_result (winner : String) (spy_player : String)
    (participants : List String) (end_method : String) (result_message : String)
    (voted_as_spy : Option String := none)
    (votes : Option (List (String × Nat)) := none) : GameResult :=
  { winner := winner
    winner_role := if winner == "spy" then "spy" else "non-spy"
    participants := participants
    end_method := end_method
    spy := spy_player
    voted_as_spy := voted_as_spy
    votes := votes
    result := result_message }

/-- Python rendering of a value that may be `None`, as interpolated into the
result message. -/
def pyOptStr : Option String → String
  | some s => s
  | none => "None"

/-- Python rendering of a non-string value interpolated into a prompt
(unreachable for validated actions, where the fields are strings). -/
def pyStrOfJson : Json → String
  | Json.str s => s
  | Json.null => "None"
  | Json.bool true => "True"
  | Json.bool false => "False"
  | Json.num raw => raw
  | Json.arr _ => "<list>"
  | Json.obj _ => "<dict>"

/-- `votes[vote] += 1` on the tally dict (the key exists: the tally is seeded
with every participant and the vote was checked for membership). -/
def incrVote (votes : List (String × Nat)) (vote : String) :
    List (String × Nat) :=
  votes.map (fun p => if p.1 == vote then (p.1, p.2 + 1) else p)

/-- `_handle_action` (green variant, lines 518-562). The incorrect-guess
branch sets the flags and broadcasts nothing. -/
def handle_action (env : Env) (actor : String) (action : Json) (st : St) :
    Except RunErr (St × List Event) :=
  match action with
  | Json.obj kvs =>
    match jlookup kvs "action" with
    | some (Json.str "ask_question") =>
      match jlookup kvs "target" with
      | some (Json.str target) =>
        if env.participants.contains target then
          let question := pyStrOfJson ((jlookup kvs "question").getD Json.null)
          match env.oracle.answerResp target actor question with
          | Except.error e => Except.error e
          | Except.ok answer =>
            Except.ok (st, [Event.qaBroadcast actor target question answer])
        else Except.ok (st, [])
      | _ => Except.ok (st, [])
    | some (Json.str "guess_location") =>
      match jlookup kvs "location_guess" with
      | some (Json.str location_guess) =>
        if pyLower location_guess == pyLower env.location then
          Except.ok ({ st with gameOver := true, spyWin := true },
            [Event.correctGuessBroadcast actor location_guess])
        else
          Except.ok ({ st with gameOver := true, spyWin := false }, [])
      | _ => Except.error RunErr.attrError
    | _ => Except.ok (st, [])
  | _ => Except.error RunErr.attrError

/-- `_handle_action` of the sibling `src/game_env.py` (lines 376-421), which
differs from the green variant only in the incorrect-guess branch: it also
broadcasts the incorrect guess and the true location. -/
def handle_action_root (env : Env) (actor : String) (action : Json) (st : St) :
    Except RunErr (St × List Event) :=
  match action with
  | Json.obj kvs =>
    match jlookup kvs "action" with
    | some (Json.str "guess_location") =>
      match jlookup kvs "location_guess" with
      | some (Json.str location_guess) =>
        if pyLower location_guess == pyLower env.location then
          Except.ok ({ st with gameOver := true, spyWin := true },
            [Event.correctGuessBroadcast actor location_guess])
        else
          Except.ok ({ st with gameOver := true, spyWin := false },
            [Event.incorrectGuessBroadcast actor location_guess env.location])
      | _ => Except.error RunErr.attrError
    | _ => handle_action env actor action st
  | _ => Except.error RunErr.attrError

/-- `_process_spy_action` (lines 490-502): prompt the spy, parse, dispatch;
an unparseable reply forfeits the turn. -/
def process_spy_action (env : Env) (spy_name : String) (st : St) :
    Except RunErr (St × List Event) :=
  match env.oracle.actionResp st.round spy_name with
  | Except.error e => Except.error e
  | Except.ok response =>
    match parse_action response true with
    | Except.error e => Except.error e
    | Except.ok (some action) =>
      match handle_action env spy_name action st with
      | Except.error e => Except.error e
      | Except.ok (st', evs) => Except.ok (st', Event.turn spy_name :: evs)
    | Except.ok none => Except.ok (st, [Event.turn spy_name])

/-- `_process_non_spy_action` (lines 504-516). -/
def process_non_spy_action (env : Env) (non_spy_name : String) (st : St) :
    Except RunErr (St × List Event) :=
  match env.oracle.actionResp st.round non_spy_name with
  | Except.error e => Except.error e
  | Except.ok response =>
    match parse_action response false with
    | Except.error e => Except.error e
    | Except.ok (some action) =>
      match handle_action env non_spy_name action st with
      | Except.error e => Except.error e
      | Except.ok (st', evs) => Except.ok (st', Event.turn non_spy_name :: evs)
    | Except.ok none => Except.ok (st, [Event.turn non_spy_name])

/-- `_run_action_round` (lines 478-488): iterate the players in registration
order, stopping as soon as `game_over` is set. -/
def run_action_round (env : Env) (assigned_roles : List (String × String))
    (st : St) : Except RunErr (St × List Event) :=
  match assigned_roles with
  | [] => Except.ok (st, [])
  | (name, role) :: rest =>
    if st.gameOver then Except.ok (st, [])
    else
      match (if role == "spy" then process_spy_action env name st
             else process_non_spy_action env name st) with
      | Except.error e => Except.error e
      | Except.ok (st1, evs1) =>
        match run_action_round env rest st1 with
        | Except.error e => Except.error e
        | Except.ok (st2, evs2) => Except.ok (st2, evs1 ++ evs2)

/-- `_send_initial_prompts` (lines 466-476): one fresh-conversation prompt per
player in registration order; the reply is ignored but a failed call
propagates. -/
def send_initial_prompts (env : Env) (assigned_roles : List (String × String)) :
    Except RunErr (List Event) :=
  match assigned_roles with
  | [] => Except.ok []
  | (name, _) :: rest =>
    match env.oracle.initResp name with
    | Except.error e => Except.error e
    | Except.ok _ =>
      match send_initial_prompts env rest with
      | Except.error e => Except.error e
      | Except.ok evs => Except.ok (Event.initSent name :: evs)

/-- `_collect_votes` inner loop (lines 362-381): prompt each non-spy voter,
strip the reply, count it only if it names a registered participant. -/
def collect_votes_loop (env : Env) (choices : List String)
    (voters : List String) (votes : List (String × Nat)) :
    Except RunErr (List (String × Nat) × List Event) :=
  match voters with
  | [] => Except.ok (votes, [])
  | voter_name :: rest =>
    match env.oracle.voteResp voter_name with
    | Except.error e => Except.error e
    | Except.ok response =>
      let vote := pyStrip response
      let votes' := if env.participants.contains vote then incrVote votes vote
        else votes
      match collect_votes_loop env choices rest votes' with
      | Except.error e => Except.error e
      | Except.ok (votesF, evs) =>
        Except.ok (votesF, Event.votePrompt voter_name choices :: evs)

/-- `_collect_votes` (lines 346-382): the vote prompt lists
`_get_other_players(assigned_roles, spy_player)` as the choices; the tally is
seeded at zero for every participant. -/
def collect_votes (env : Env) (assigned_roles : List (String × String)) :
    Except RunErr (List (String × Nat) × List Event) :=
  let non_spy_players := get_non_spies assigned_roles
  match get_spy assigned_roles with
  | Except.error e => Except.error e
  | Except.ok spy_player =>
    let other_players := get_other_players env.participants spy_player
    let votes := env.participants.map (fun player => (player, 0))
    collect_votes_loop env other_players non_spy_players votes

/-- `max(votes.values()) if votes.values() else 0`. -/
def maxVotes (votes : List (String × Nat)) : Nat :=
  match votes with
  | [] => 0
  | _ => (votes.map (fun p => p.2)).foldl Nat.max 0

/-- `_end_game` (lines 384-434): collect votes, take the maximum count, break
ties by the first max-count entry in tally (= registration) order, decide the
winner, broadcast and build the result. -/
def end_game (env : Env) (assigned_roles : List (String × String)) (st : St) :
    Except RunErr (GameResult × St × List Event) :=
  match get_spy assigned_roles with
  | Except.error e => Except.error e
  | Except.ok spy_player =>
    match collect_votes env assigned_roles with
    | Except.error e => Except.error e
    | Except.ok (votes, evs) =>
      let max_votes := maxVotes votes
      let players_with_max_votes :=
        (votes.filter (fun p => p.2 == max_votes)).map (fun p => p.1)
      let voted_as_spy : Option String := players_with_max_votes.head?
      if voted_as_spy == some spy_player then
        let result_message := "The non-spies correctly identified " ++ spy_player
          ++ " as the spy! Non-spies win!"
        Except.ok (build_game_result "non-spies" spy_player env.participants
            "vote" result_message voted_as_spy (some votes),
          { st with spyWin := false },
          evs ++ [Event.resultBroadcast result_message])
      else
        let result_message := "The non-spies voted for " ++ pyOptStr voted_as_spy
          ++ ", but " ++ spy_player ++ " was actually the spy! Spy wins!"
        Except.ok (build_game_result "spy" spy_player env.participants
            "vote" result_message voted_as_spy (some votes),
          { st with spyWin := true },
          evs ++ [Event.resultBroadcast result_message])

/-- The `while self.round < self.max_rounds and not self.game_over` loop of
`play_game` (lines 437-446). Returns the final state, the events, and the
list of `self.round` values at which iterations ran (round 0 is the Init
iteration, later values are action rounds). The fuel argument bounds the
iteration count; `play_game` passes `max_rounds + 1`, which the loop never
exhausts because every iteration increments `round`. -/
def play_loop (env : Env) (assigned_roles : List (String × String)) :
    Nat → St → Except RunErr (St × List Event × List Nat)
  | 0, st => Except.ok (st, [], [])
  | fuel + 1, st =>
    if st.round < env.maxRounds ∧ st.gameOver = false then
      if st.round = 0 then
        match send_initial_prompts env assigned_roles with
        | Except.error e => Except.error e
        | Except.ok evs =>
          match play_loop env assigned_roles fuel { st with round := st.round + 1 } with
          | Except.error e => Except.error e
          | Except.ok (stF, evsF, iters) =>
            Except.ok (stF, evs ++ evsF, st.round :: iters)
      else
        match run_action_round env assigned_roles st with
        | Except.error e => Except.error e
        | Except.ok (st1, evs) =>
          match play_loop env assigned_roles fuel { st1 with round := st1.round + 1 } with
          | Except.error e => Except.error e
          | Except.ok (stF, evsF, iters) =>
            Except.ok (stF, evs ++ evsF, st.round :: iters)
    else Except.ok (st, [], [])

/-- `play_game` (lines 437-464): run the loop from the freshly constructed
state, then either run the vote phase (natural end) or build the early
spy-guess result. -/
def play_game (env : Env) (assigned_roles : List (String × String)) :
    Except RunErr (GameResult × St × List Event × List Nat) :=
  match play_loop env assigned_roles (env.maxRounds + 1) ⟨0, false, false⟩ with
  | Except.error e => Except.error e
  | Except.ok (st, evs, iters) =>
    match get_spy assigned_roles with
    | Except.error e => Except.error e
    | Except.ok spy_player =>
      if st.gameOver = false then
        match end_game env assigned_roles st with
        | Except.error e => Except.error e
        | Except.ok (results, st', evs') =>
          Except.ok (results, st', evs ++ evs', iters)
      else
        let result_message := "The spy " ++ spy_player ++ " guessed the location: "
          ++ (if st.spyWin then "correct" else "incorrect") ++ "!"
        Except.ok (build_game_result (if st.spyWin then "spy" else "non-spies")
            spy_player env.participants "spy_guess" result_message,
          st, evs, iters)

/-! ## Concrete fixtures used by witnesses and counterexamples -/

/-- A reply that is never an accepted `guess_location` action, for either
role: it parses to `None` or to an `ask_question`/other dict. -/
def ForfeitsOrAsks (s : String) : Prop :=
  ∀ b, parse_action s b = Except.ok none ∨
    ∃ kvs, parse_action s b = Except.ok (some (Json.obj kvs)) ∧
      jlookup kvs "action" ≠ some (Json.str "guess_location")

/-- All point-to-point messenger calls of the loop succeed and no reply is an
accepted `guess_location`: the conditions under which an action round leaves
the game state untouched. -/
def OracleOk (env : Env) : Prop :=
  (∀ n, ∃ s, env.oracle.initResp n = Except.ok s) ∧
  (∀ t a q, ∃ s, env.oracle.answerResp t a q = Except.ok s) ∧
  (∀ r n, ∃ s, env.oracle.actionResp r n = Except.ok s ∧ ForfeitsOrAsks s)

/-- Oracle whose action replies never parse: every action turn is forfeited. -/
def oracleForfeit : Oracle :=
  { initResp := fun _ => Except.ok "ok"
    actionResp := fun _ _ => Except.ok "pass"
    answerResp := fun _ _ _ => Except.ok "an answer"
    voteResp := fun _ => Except.ok "Alice" }

/-- Oracle whose action-turn calls fail with a `TransportError`. -/
def oracleActionFail : Oracle :=
  { oracleForfeit with actionResp := fun _ _ => Except.error RunErr.transport }

/-- Oracle whose vote calls fail with a `TransportError`. -/
def oracleVoteFail : Oracle :=
  { oracleForfeit with voteResp := fun _ => Except.error RunErr.transport }

/-- Three registered players, location `Beach`, two rounds, forfeit oracle. -/
def envSample : Env :=
  { participants := ["Alice", "Bob", "Carol"], location := "Beach",
    maxRounds := 2, oracle := oracleForfeit }

/-- `envSample` with `max_rounds = 1`. -/
def envOneRound : Env := { envSample with maxRounds := 1 }

/-- `envSample` with failing action-turn messenger calls. -/
def envActionFail : Env := { envSample with oracle := oracleActionFail }

/-- `envSample` with failing vote messenger calls. -/
def envVoteFail : Env := { envSample with oracle := oracleVoteFail }

/-- Oracle whose action-turn and vote calls both fail with a `TransportError`. -/
def oracleBothFail : Oracle :=
  { oracleForfeit with
    actionResp := fun _ _ => Except.error RunErr.transport
    voteResp := fun _ => Except.error RunErr.transport }

/-- `envSample` with failing action-turn and vote messenger calls. -/
def envBothFail : Env := { envSample with oracle := oracleBothFail }

/-- The role assignment of `envSample`'s players with Alice as the spy. -/
def rolesSample : List (String × String) :=
  assign_roles ["Alice", "Bob", "Carol"] 0

/-! # Lemmas

## Characters, hex digits, code units -/

theorem char_toNat_valid (c : Char) :
    c.toNat < 0xd800 ∨ (0xdfff < c.toNat ∧ c.toNat < 0x110000) := by
  rcases c.valid with h | ⟨h1, h2⟩
  · left
    simpa [UInt32.lt_def, BitVec.lt_def] using h
  · right
    exact ⟨by simpa [UInt32.lt_def, BitVec.lt_def] using h1,
      by simpa [UInt32.lt_def, BitVec.lt_def] using h2⟩

theorem hexVal_hexDigit (n : Nat) (h : n < 16) : hexVal (hexDigit n) = some n := by
  interval_cases n <;> decide

theorem hexDigit_ne_quote (n : Nat) (h : n < 16) : hexDigit n ≠ '"' := by
  interval_cases n <;> decide

theorem hexDigit_ne_backslash (n : Nat) (h : n < 16) : hexDigit n ≠ '\\' := by
  interval_cases n <;> decide

/-! ## `takeRaw` over escaped text -/

theorem takeRawM_plain (c : Char) (tail : List Char) (h1 : c ≠ '"')
    (h2 : c ≠ '\\') :
    takeRawM false (c :: tail) =
      (takeRawM false tail).map (fun p => (c :: p.1, p.2)) := by
  rw [takeRawM.eq_def]
  simp only [if_neg h1, if_neg h2]

theorem takeRawM_pair (e : Char) (tail : List Char) :
    takeRawM false ('\\' :: e :: tail) =
      (takeRawM false tail).map (fun p => ('\\' :: e :: p.1, p.2)) := by
  rw [show takeRawM false ('\\' :: e :: tail) =
    (takeRawM true (e :: tail)).map (fun p => ('\\' :: p.1, p.2)) from rfl]
  rw [show takeRawM true (e :: tail) =
    (takeRawM false tail).map (fun p => (e :: p.1, p.2)) from rfl]
  rw [Option.map_map]
  rfl

theorem takeRawM_plainList (X : List Char)
    (hX : ∀ x ∈ X, x ≠ '"' ∧ x ≠ '\\') (tail : List Char) :
    takeRawM false (X ++ tail) =
      (takeRawM false tail).map (fun p => (X ++ p.1, p.2)) := by
  induction X with
  | nil =>
    simp only [List.nil_append]
    cases takeRawM false tail <;> rfl
  | cons c X ih =>
    have hc := hX c (by simp)
    rw [List.cons_append, takeRawM_plain c _ hc.1 hc.2,
      ih (fun x hx => hX x (by simp [hx])), Option.map_map]
    rfl

theorem encode4_plain (n : Nat) :
    ∀ x ∈ encode4 n, x ≠ '"' ∧ x ≠ '\\' := by
  have hq : ∀ m : Nat, hexDigit (m % 16) ≠ '"' ∧ hexDigit (m % 16) ≠ '\\' := fun m =>
    ⟨hexDigit_ne_quote _ (Nat.mod_lt _ (by decide)),
      hexDigit_ne_backslash _ (Nat.mod_lt _ (by decide))⟩
  intro x hx
  rw [encode4] at hx
  simp only [List.mem_cons, List.not_mem_nil, or_false] at hx
  rcases hx with h | h | h | h <;> subst h
  · exact hq _
  · exact hq _
  · exact hq _
  · exact hq _

theorem takeRawM_escapeChar (c : Char) (tail : List Char) :
    takeRawM false (escapeChar c ++ tail) =
      (takeRawM false tail).map (fun p => (escapeChar c ++ p.1, p.2)) := by
  by_cases h1 : c = '"'
  · subst h1
    rw [show escapeChar '"' = ['\\', '"'] from rfl]
    rw [List.cons_append, List.cons_append, List.nil_append, takeRawM_pair]
    rfl
  by_cases h2 : c = '\\'
  · subst h2
    rw [show escapeChar '\\' = ['\\', '\\'] from rfl]
    rw [List.cons_append, List.cons_append, List.nil_append, takeRawM_pair]
    rfl
  by_cases h3 : c = '\n'
  · subst h3
    rw [show escapeChar '\n' = ['\\', 'n'] from rfl]
    rw [List.cons_append, List.cons_append, List.nil_append, takeRawM_pair]
    rfl
  by_cases h4 : c = '\r'
  · subst h4
    rw [show escapeChar '\r' = ['\\', 'r'] from rfl]
    rw [List.cons_append, List.cons_append, List.nil_append, takeRawM_pair]
    rfl
  by_cases h5 : c = '\t'
  · subst h5
    rw [show escapeChar '\t' = ['\\', 't'] from rfl]
    rw [List.cons_append, List.cons_append, List.nil_append, takeRawM_pair]
    rfl
  by_cases h6 : c.toNat = 8
  · have hc : c = Char.ofNat 8 := by rw [← h6, Char.ofNat_toNat]
    subst hc
    rw [show escapeChar (Char.ofNat 8) = ['\\', 'b'] from rfl]
    rw [List.cons_append, List.cons_append, List.nil_append, takeRawM_pair]
    rfl
  by_cases h7 : c.toNat = 12
  · have hc : c = Char.ofNat 12 := by rw [← h7, Char.ofNat_toNat]
    subst hc
    rw [show escapeChar (Char.ofNat 12) = ['\\', 'f'] from rfl]
    rw [List.cons_append, List.cons_append, List.nil_append, takeRawM_pair]
    rfl
  by_cases h8 : 0x20 ≤ c.toNat ∧ c.toNat < 0x7f
  · have he : escapeChar c = [c] := by
      rw [escapeChar, if_neg h1, if_neg h2, if_neg h3, if_neg h4, if_neg h5,
        if_neg h6, if_neg h7, if_pos h8]
    rw [he, List.cons_append, List.nil_append, takeRawM_plain c tail h1 h2]
    rfl
  by_cases h9 : c.toNat < 0x10000
  · have he : escapeChar c = '\\' :: 'u' :: encode4 c.toNat := by
      rw [escapeChar, if_neg h1, if_neg h2, if_neg h3, if_neg h4, if_neg h5,
        if_neg h6, if_neg h7, if_neg h8, if_pos h9]
    rw [he]
    simp only [List.cons_append]
    rw [takeRawM_pair, takeRawM_plainList _ (encode4_plain _), Option.map_map]
    rfl
  · have he : escapeChar c =
        '\\' :: 'u' :: encode4 (0xd800 + (c.toNat - 0x10000) / 0x400) ++
          '\\' :: 'u' :: encode4 (0xdc00 + (c.toNat - 0x10000) % 0x400) := by
      rw [escapeChar, if_neg h1, if_neg h2, if_neg h3, if_neg h4, if_neg h5,
        if_neg h6, if_neg h7, if_neg h8, if_neg h9]
    have hv := char_toNat_valid c
    have hhi : 0xd800 + (c.toNat - 0x10000) / 0x400 < 0x10000 := by omega
    have hlo : 0xdc00 + (c.toNat - 0x10000) % 0x400 < 0x10000 := by
      have := Nat.mod_lt (c.toNat - 0x10000) (y := 0x400) (by decide)
      omega
    rw [he]
    simp only [List.cons_append, List.append_assoc]
    rw [takeRawM_pair, takeRawM_plainList _ (encode4_plain _)]
    rw [takeRawM_pair, takeRawM_plainList _ (encode4_plain _)]
    simp only [Option.map_map]
    rfl

theorem takeRaw_escapeList (l : List Char) (rest : List Char) :
    takeRaw (escapeList l ++ '"' :: rest) = some (escapeList l, rest) := by
  show takeRawM false (escapeList l ++ '"' :: rest) = some (escapeList l, rest)
  induction l with
  | nil =>
    simp only [escapeList, List.map_nil, List.flatten_nil, List.nil_append]
    rfl
  | cons c l ih =>
    have h : escapeList (c :: l) = escapeChar c ++ escapeList l := by
      simp [escapeList]
    rw [h, List.append_assoc, takeRawM_escapeChar, ih]
    rfl

/-! ## `unitsOf` over escaped text -/

theorem unitsOf_plain (c : Char) (tail : List Char) (h1 : c ≠ '\\')
    (h2 : ¬ c.toNat < 0x20) :
    unitsOf ScanMode.normal (c :: tail) =
      (unitsOf ScanMode.normal tail).map (fun l => c.toNat :: l) := by
  rw [unitsOf.eq_def]
  simp only [if_neg h1, if_neg h2]

theorem unitsOf_hex_step (k acc m : Nat) (Z : List Char) (hm : m < 16) :
    unitsOf (ScanMode.hex (k + 2) acc) (hexDigit m :: Z) =
      unitsOf (ScanMode.hex (k + 1) (acc * 16 + m)) Z := by
  rw [unitsOf.eq_def]
  simp only [hexVal_hexDigit m hm, if_neg (by omega : ¬ k + 2 = 1)]
  rfl

theorem unitsOf_hex_last (acc m : Nat) (Z : List Char) (hm : m < 16) :
    unitsOf (ScanMode.hex 1 acc) (hexDigit m :: Z) =
      (unitsOf ScanMode.normal Z).map (fun l => (acc * 16 + m) :: l) := by
  rw [unitsOf.eq_def]
  simp only [hexVal_hexDigit m hm]
  rfl

theorem unitsOf_u (n : Nat) (h : n < 0x10000) (tail : List Char) :
    unitsOf ScanMode.normal ('\\' :: 'u' :: (encode4 n ++ tail)) =
      (unitsOf ScanMode.normal tail).map (fun l => n :: l) := by
  have hd : ∀ a : Nat, a % 16 < 16 := fun a => Nat.mod_lt _ (by decide)
  calc unitsOf ScanMode.normal ('\\' :: 'u' :: (encode4 n ++ tail))
      = unitsOf (ScanMode.hex 4 0) (hexDigit (n / 4096 % 16) ::
          hexDigit (n / 256 % 16) :: hexDigit (n / 16 % 16) ::
          hexDigit (n % 16) :: tail) := rfl
    _ = unitsOf (ScanMode.hex 3 (0 * 16 + n / 4096 % 16)) (hexDigit (n / 256 % 16) ::
          hexDigit (n / 16 % 16) :: hexDigit (n % 16) :: tail) :=
        unitsOf_hex_step 2 0 _ _ (hd _)
    _ = unitsOf (ScanMode.hex 2 ((0 * 16 + n / 4096 % 16) * 16 + n / 256 % 16))
          (hexDigit (n / 16 % 16) :: hexDigit (n % 16) :: tail) :=
        unitsOf_hex_step 1 _ _ _ (hd _)
    _ = unitsOf (ScanMode.hex 1 (((0 * 16 + n / 4096 % 16) * 16 + n / 256 % 16) * 16
          + n / 16 % 16)) (hexDigit (n % 16) :: tail) :=
        unitsOf_hex_step 0 _ _ _ (hd _)
    _ = (unitsOf ScanMode.normal tail).map (fun l =>
          ((((0 * 16 + n / 4096 % 16) * 16 + n / 256 % 16) * 16 + n / 16 % 16) * 16
            + n % 16) :: l) :=
        unitsOf_hex_last _ _ _ (hd _)
    _ = (unitsOf ScanMode.normal tail).map (fun l => n :: l) := by
        have e : (((0 * 16 + n / 4096 % 16) * 16 + n / 256 % 16) * 16 + n / 16 % 16) * 16
            + n % 16 = n := by omega
        rw [e]

theorem unitsOf_escapeChar (c : Char) (tail : List Char) :
    unitsOf ScanMode.normal (escapeChar c ++ tail) =
      (unitsOf ScanMode.normal tail).map (fun l => unitsChar c ++ l) := by
  by_cases h1 : c = '"'
  · subst h1; rfl
  by_cases h2 : c = '\\'
  · subst h2; rfl
  by_cases h3 : c = '\n'
  · subst h3; rfl
  by_cases h4 : c = '\r'
  · subst h4; rfl
  by_cases h5 : c = '\t'
  · subst h5; rfl
  by_cases h6 : c.toNat = 8
  · have hc : c = Char.ofNat 8 := by rw [← h6, Char.ofNat_toNat]
    subst hc; rfl
  by_cases h7 : c.toNat = 12
  · have hc : c = Char.ofNat 12 := by rw [← h7, Char.ofNat_toNat]
    subst hc; rfl
  by_cases h8 : 0x20 ≤ c.toNat ∧ c.toNat < 0x7f
  · have he : escapeChar c = [c] := by
      rw [escapeChar, if_neg h1, if_neg h2, if_neg h3, if_neg h4, if_neg h5,
        if_neg h6, if_neg h7, if_pos h8]
    have hu : unitsChar c = [c.toNat] := by
      rw [unitsChar, if_pos (by omega : c.toNat < 0x10000)]
    rw [he, List.cons_append, List.nil_append,
      unitsOf_plain c tail h2 (by omega), hu]
    rfl
  by_cases h9 : c.toNat < 0x10000
  · have he : escapeChar c = '\\' :: 'u' :: encode4 c.toNat := by
      rw [escapeChar, if_neg h1, if_neg h2, if_neg h3, if_neg h4, if_neg h5,
        if_neg h6, if_neg h7, if_neg h8, if_pos h9]
    have hu : unitsChar c = [c.toNat] := by rw [unitsChar, if_pos h9]
    rw [he]
    simp only [List.cons_append]
    rw [unitsOf_u _ h9, hu]
    rfl
  · have he : escapeChar c =
        '\\' :: 'u' :: encode4 (0xd800 + (c.toNat - 0x10000) / 0x400) ++
          '\\' :: 'u' :: encode4 (0xdc00 + (c.toNat - 0x10000) % 0x400) := by
      rw [escapeChar, if_neg h1, if_neg h2, if_neg h3, if_neg h4, if_neg h5,
        if_neg h6, if_neg h7, if_neg h8, if_neg h9]
    have hv := char_toNat_valid c
    have hhi : 0xd800 + (c.toNat - 0x10000) / 0x400 < 0x10000 := by omega
    have hlo : 0xdc00 + (c.toNat - 0x10000) % 0x400 < 0x10000 := by
      have := Nat.mod_lt (c.toNat - 0x10000) (y := 0x400) (by decide)
      omega
    have hu : unitsChar c = [0xd800 + (c.toNat - 0x10000) / 0x400,
        0xdc00 + (c.toNat - 0x10000) % 0x400] := by
      rw [unitsChar, if_neg h9]
    rw [he]
    simp only [List.cons_append, List.append_assoc]
    rw [unitsOf_u _ hhi]
    rw [unitsOf_u _ hlo, Option.map_map, hu]
    rfl

theorem unitsOf_escapeList (l : List Char) :
    unitsOf ScanMode.normal (escapeList l) = some (unitsList l) := by
  induction l with
  | nil => rfl
  | cons c l ih =>
    have h : escapeList (c :: l) = escapeChar c ++ escapeList l := by
      simp [escapeList]
    rw [h, unitsOf_escapeChar, ih]
    simp [unitsList]

/-! ## `combineUnits` over code units -/

theorem combineUnitsM_unitsChar (c : Char) (rest : List Nat) :
    combineUnitsM none (unitsChar c ++ rest) =
      (combineUnitsM none rest).map (fun l => c :: l) := by
  have hv := char_toNat_valid c
  by_cases h : c.toNat < 0x10000
  · rw [show unitsChar c = [c.toNat] from by rw [unitsChar, if_pos h],
      List.cons_append, List.nil_append, combineUnitsM.eq_def]
    simp only [if_neg (by omega : ¬ (0xd800 ≤ c.toNat ∧ c.toNat < 0xdc00)),
      if_neg (by omega : ¬ (0xdc00 ≤ c.toNat ∧ c.toNat < 0xe000)),
      Char.ofNat_toNat]
  · rw [show unitsChar c = [0xd800 + (c.toNat - 0x10000) / 0x400,
        0xdc00 + (c.toNat - 0x10000) % 0x400] from by rw [unitsChar, if_neg h]]
    have hmod := Nat.mod_lt (c.toNat - 0x10000) (y := 0x400) (by decide)
    have hdiv : (c.toNat - 0x10000) / 0x400 < 0x400 := by
      apply Nat.div_lt_of_lt_mul
      omega
    rw [List.cons_append, List.cons_append, List.nil_append, combineUnitsM.eq_def]
    simp only [if_pos (by omega : 0xd800 ≤ 0xd800 + (c.toNat - 0x10000) / 0x400 ∧
      0xd800 + (c.toNat - 0x10000) / 0x400 < 0xdc00)]
    rw [combineUnitsM.eq_def]
    simp only [if_pos (by omega : 0xdc00 ≤ 0xdc00 + (c.toNat - 0x10000) % 0x400 ∧
      0xdc00 + (c.toNat - 0x10000) % 0x400 < 0xe000)]
    have e : 0x10000 + (0xd800 + (c.toNat - 0x10000) / 0x400 - 0xd800) * 0x400 +
        (0xdc00 + (c.toNat - 0x10000) % 0x400 - 0xdc00) = c.toNat := by omega
    rw [e, Char.ofNat_toNat]

theorem combineUnits_unitsList (l : List Char) :
    combineUnitsM none (unitsList l) = some l := by
  induction l with
  | nil => rfl
  | cons c l ih =>
    have h : unitsList (c :: l) = unitsChar c ++ unitsList l := by
      simp [unitsList]
    rw [h, combineUnitsM_unitsChar, ih]
    rfl

/-! ## The string round trip -/

theorem parseStrBody_escapeList (l : List Char) (rest : List Char) :
    parseStrBody (escapeList l ++ '"' :: rest) = some (l, rest) := by
  rw [parseStrBody, takeRaw_escapeList]
  simp only []
  rw [unitsOf_escapeList]
  simp only []
  rw [combineUnits, combineUnits_unitsList]
  rfl

/-! ## `parseValue` on serialized strings -/

theorem skipWs_not_ws (c : Char) (cs : List Char) (h : jsonWs c = false) :
    skipWs (c :: cs) = c :: cs := by
  simp [skipWs, List.dropWhile_cons, h]

theorem skipWs_space (cs : List Char) : skipWs (' ' :: cs) = skipWs cs := by
  show List.dropWhile jsonWs (' ' :: cs) = List.dropWhile jsonWs cs
  rw [List.dropWhile_cons, if_pos (by decide : jsonWs ' ' = true)]

theorem dumpStrChars_append (s : String) (t : List Char) :
    dumpStrChars s ++ t = strChars s t := by
  simp [dumpStrChars, strChars]

theorem parseStrBody_strChars (s : String) (t : List Char) :
    parseStrBody (escapeList s.data ++ '"' :: t) = some (s.data, t) :=
  parseStrBody_escapeList s.data t

theorem parseStep_str (inner : List Char → Option (Json × List Char))
    (s : String) (t : List Char) :
    parseStep inner (strChars s t) = some (Json.str s, t) := by
  rw [strChars, parseStep.eq_def, skipWs_not_ws _ _ (by decide)]
  simp only [parseStrBody_strChars]
  rfl

theorem parseValue_str (fuel : Nat) (s : String) (t : List Char) :
    parseValue fuel (strChars s t) = some (Json.str s, t) := by
  cases fuel with
  | zero => exact parseStep_str _ s t
  | succ n => exact parseStep_str _ s t

theorem parseValue_str_ws (fuel : Nat) (s : String) (t : List Char) :
    parseValue fuel (' ' :: strChars s t) = some (Json.str s, t) := by
  cases fuel with
  | zero =>
    rw [show parseValue 0 (' ' :: strChars s t)
        = parseStep (fun _ => none) (' ' :: strChars s t) from rfl,
      parseStep.eq_def, skipWs_space, strChars, skipWs_not_ws _ _ (by decide)]
    have := parseStep_str (fun _ : List Char => (none : Option (Json × List Char))) s t
    rw [parseStep.eq_def, strChars, skipWs_not_ws _ _ (by decide)] at this
    exact this
  | succ n =>
    rw [show parseValue (n + 1) (' ' :: strChars s t)
        = parseStep (parseValue n) (' ' :: strChars s t) from rfl,
      parseStep.eq_def, skipWs_space, strChars, skipWs_not_ws _ _ (by decide)]
    have := parseStep_str (parseValue n) s t
    rw [parseStep.eq_def, strChars, skipWs_not_ws _ _ (by decide)] at this
    exact this

/-! ## `parseMembersF` on serialized members -/

theorem skipWs_quote (X : List Char) : skipWs ('"' :: X) = '"' :: X :=
  skipWs_not_ws _ _ (by decide)

theorem skipWs_colon (X : List Char) : skipWs (':' :: X) = ':' :: X :=
  skipWs_not_ws _ _ (by decide)

theorem skipWs_comma (X : List Char) : skipWs (',' :: X) = ',' :: X :=
  skipWs_not_ws _ _ (by decide)

theorem skipWs_rcurl (X : List Char) : skipWs (rcurl :: X) = rcurl :: X :=
  skipWs_not_ws _ _ (by decide)

theorem skipWs_lcurl (X : List Char) : skipWs (lcurl :: X) = lcurl :: X :=
  skipWs_not_ws _ _ (by decide)

theorem dumpFields_single (k v : String) (Y : List Char) :
    dumpFieldsChars [(k, v)] ++ Y = strChars k (':' :: ' ' :: strChars v Y) := by
  simp [dumpFieldsChars, dumpMemberChars, dumpStrChars, strChars,
    List.append_assoc]

theorem dumpFields_cons (k v : String) (f2 : String × String)
    (fs : List (String × String)) (Y : List Char) :
    dumpFieldsChars ((k, v) :: f2 :: fs) ++ Y =
      strChars k (':' :: ' ' ::
        strChars v (',' :: ' ' :: (dumpFieldsChars (f2 :: fs) ++ Y))) := by
  simp [dumpFieldsChars, dumpMemberChars, dumpStrChars, strChars,
    List.append_assoc]

theorem parseMembersF_ws (pv : List Char → Option (Json × List Char))
    (st : Nat) (X : List Char) (acc : List (String × Json)) :
    parseMembersF pv (st + 1) (' ' :: X) acc = parseMembersF pv (st + 1) X acc := by
  rw [parseMembersF.eq_def, parseMembersF.eq_def]
  simp only [skipWs_space]

theorem parseMembersF_fields (pv : List Char → Option (Json × List Char))
    (hpv : ∀ (v : String) (t : List Char),
      pv (' ' :: '"' :: (escapeList v.data ++ '"' :: t)) = some (Json.str v, t)) :
    ∀ (fields : List (String × String)) (k v : String) (steps : Nat)
      (acc : List (String × Json)) (rest : List Char),
      fields.length < steps →
      parseMembersF pv steps (dumpFieldsChars ((k, v) :: fields) ++ rcurl :: rest) acc =
        some (((k, v) :: fields).foldl
          (fun a kv => dictInsert a kv.1 (Json.str kv.2)) acc, rest) := by
  intro fields
  induction fields with
  | nil =>
    intro k v steps acc rest hlen
    obtain ⟨st, rfl⟩ : ∃ st, steps = st + 1 := ⟨steps - 1, by omega⟩
    rw [dumpFields_single k v (rcurl :: rest)]
    rw [parseMembersF.eq_def]
    simp only [strChars, skipWs_quote, parseStrBody_strChars, skipWs_colon,
      hpv, skipWs_rcurl, List.foldl_cons, List.foldl_nil]
    rfl
  | cons f2 fs ih =>
    intro k v steps acc rest hlen
    obtain ⟨f2k, f2v⟩ := f2
    obtain ⟨st, rfl⟩ : ∃ st, steps = st + 1 := ⟨steps - 1, by omega⟩
    obtain ⟨st2, rfl⟩ : ∃ st2, st = st2 + 1 := ⟨st - 1, by simp at hlen; omega⟩
    rw [dumpFields_cons k v (f2k, f2v) fs (rcurl :: rest)]
    rw [parseMembersF.eq_def]
    simp only [strChars, skipWs_quote, parseStrBody_strChars, skipWs_colon,
      hpv, skipWs_comma]
    rw [show (String.mk k.data) = k from rfl]
    rw [parseMembersF_ws, ih f2k f2v (st2 + 1) (dictInsert acc k (Json.str v))
      rest (by simp at hlen ⊢; omega)]
    simp only [List.foldl_cons]

/-! ## Parsing a whole serialized object -/

theorem dumpFields_length (fields : List (String × String)) (h : fields ≠ []) :
    fields.length ≤ (dumpFieldsChars fields).length := by
  induction fields with
  | nil => simp at h
  | cons f fs ih =>
    obtain ⟨k, v⟩ := f
    cases fs with
    | nil =>
      simp [dumpFieldsChars, dumpMemberChars, dumpStrChars]
    | cons f2 fs2 =>
      have := ih (by simp)
      simp only [dumpFieldsChars, dumpMemberChars, dumpStrChars] at *
      simp only [List.length_cons, List.length_append, List.length_cons] at *
      omega

theorem parseValue_obj (fuel : Nat) (k v : String)
    (fields : List (String × String)) (rest : List Char) :
    parseValue (fuel + 1) (dumpObjChars ((k, v) :: fields) ++ rest) =
      some (Json.obj (((k, v) :: fields).foldl
        (fun a kv => dictInsert a kv.1 (Json.str kv.2)) []), rest) := by
  have hshape : dumpObjChars ((k, v) :: fields) ++ rest =
      lcurl :: (dumpFieldsChars ((k, v) :: fields) ++ rcurl :: rest) := by
    simp [dumpObjChars, List.append_assoc]
  have hq : ∃ Z, dumpFieldsChars ((k, v) :: fields) ++ rcurl :: rest = '"' :: Z := by
    cases fields with
    | nil => exact ⟨_, by rw [dumpFields_single k v (rcurl :: rest), strChars]⟩
    | cons f2 fs => exact ⟨_, by rw [dumpFields_cons k v f2 fs (rcurl :: rest), strChars]⟩
  obtain ⟨Z, hZ⟩ := hq
  have hlen : fields.length <
      (dumpFieldsChars ((k, v) :: fields) ++ rcurl :: rest).length + 1 := by
    have := dumpFields_length ((k, v) :: fields) (by simp)
    simp only [List.length_append, List.length_cons] at *
    omega
  rw [hshape, show parseValue (fuel + 1) = parseStep (parseValue fuel) from rfl,
    parseStep.eq_def, skipWs_lcurl]
  simp only [if_neg (show ¬ lcurl = '"' by decide), if_pos rfl, hZ, skipWs_quote]
  rw [← hZ]
  simp only [if_neg (show ¬ ('"' : Char) = rcurl by decide)]
  rw [parseMembersF_fields (parseValue fuel)
    (fun s t => parseValue_str_ws fuel s t) fields k v _ [] rest hlen]
  rfl

theorem loads_mk_dumpObj (k v : String) (fields : List (String × String)) :
    loads (String.mk (dumpObjChars ((k, v) :: fields))) =
      some (Json.obj (((k, v) :: fields).foldl
        (fun a kv => dictInsert a kv.1 (Json.str kv.2)) [])) := by
  show (match parseValue (dumpObjChars ((k, v) :: fields)).length
      (dumpObjChars ((k, v) :: fields)) with
    | some (j, rest) => if (skipWs rest).isEmpty then some j else none
    | none => none) = _
  have hlen : (dumpObjChars ((k, v) :: fields)).length =
      (dumpFieldsChars ((k, v) :: fields)).length + 1 + 1 := by
    simp [dumpObjChars]
  have happ : dumpObjChars ((k, v) :: fields) =
      dumpObjChars ((k, v) :: fields) ++ [] := by simp
  rw [hlen, happ, parseValue_obj]
  rfl

/-! ## `strip` and fence extraction on serialized objects -/

theorem stripL_clean (c d : Char) (X W : List Char) (hc : pyWsChar c = false)
    (hd : pyWsChar d = false) (hW : ∀ w ∈ W, pyWsChar w = true) :
    stripL ((c :: (X ++ [d])) ++ W) = c :: (X ++ [d]) := by
  have h1 : List.dropWhile pyWsChar ((c :: (X ++ [d])) ++ W) =
      c :: ((X ++ [d]) ++ W) := by
    rw [List.cons_append, List.dropWhile_cons, hc]
    simp
  have h2 : (c :: ((X ++ [d]) ++ W)).reverse =
      W.reverse ++ (d :: (X.reverse ++ [c])) := by
    simp [List.append_assoc]
  have h3 : List.dropWhile pyWsChar (W.reverse ++ (d :: (X.reverse ++ [c]))) =
      d :: (X.reverse ++ [c]) := by
    rw [List.dropWhile_append_of_pos (fun a ha => hW a (List.mem_reverse.mp ha)),
      List.dropWhile_cons, hd]
    simp
  rw [stripL, h1, h2, h3]
  simp

theorem dumpObjChars_shape (F : List (String × String)) :
    dumpObjChars F = lcurl :: (dumpFieldsChars F ++ [rcurl]) := by
  simp [dumpObjChars]

theorem stripL_dumpObj (F : List (String × String)) :
    stripL (dumpObjChars F) = dumpObjChars F := by
  have h := stripL_clean lcurl rcurl (dumpFieldsChars F) [] (by decide) (by decide)
    (by simp)
  rw [dumpObjChars_shape]
  simpa using h

theorem fence_not_prefix_obj (T : List Char) :
    fenceMarker.isPrefixOf (lcurl :: T) = false := rfl

theorem extractL_obj (F : List (String × String)) :
    extractL (dumpObjChars F) = dumpObjChars F := by
  rw [extractL, stripL_dumpObj, dumpObjChars_shape]
  simp only [fence_not_prefix_obj, Bool.false_eq_true, if_false]
  rw [← dumpObjChars_shape, stripL_dumpObj]

theorem extractL_fenced (F : List (String × String)) :
    extractL (("```\n".data ++ dumpObjChars F) ++ "\n```".data) =
      dumpObjChars F := by
  have hin : ("```\n".data ++ dumpObjChars F) ++ "\n```".data =
      (btick :: ((btick :: btick :: '\n' :: (dumpObjChars F ++ ['\n', btick, btick]))
        ++ [btick])) ++ ([] : List Char) := by
    rw [show "```\n".data = [btick, btick, btick, '\n'] from rfl,
      show "\n```".data = ['\n', btick, btick, btick] from rfl]
    simp [List.append_assoc]
  have hstrip : stripL (("```\n".data ++ dumpObjChars F) ++ "\n```".data) =
      btick :: btick :: btick :: '\n' :: (dumpObjChars F ++ ['\n', btick, btick, btick]) := by
    rw [hin, stripL_clean btick btick _ [] (by decide) (by decide) (by simp)]
    simp [List.append_assoc]
  rw [extractL, hstrip]
  rw [show fenceMarker.isPrefixOf (btick :: btick :: btick :: '\n' ::
    (dumpObjChars F ++ ['\n', btick, btick, btick])) = true from rfl]
  simp only [if_true]
  rw [show (btick :: btick :: btick :: '\n' ::
      (dumpObjChars F ++ ['\n', btick, btick, btick])).findIdx?
      (fun c => c = '\n') = some 3 from rfl]
  simp only []
  rw [show ((btick :: btick :: btick :: '\n' ::
      (dumpObjChars F ++ ['\n', btick, btick, btick]))).drop (3 + 1)
    = dumpObjChars F ++ ['\n', btick, btick, btick] from rfl]
  have hsuf : fenceMarker.isSuffixOf (dumpObjChars F ++ ['\n', btick, btick, btick])
      = true := by
    rw [List.isSuffixOf_iff_suffix]
    exact ⟨dumpObjChars F ++ ['\n'], by simp [fenceMarker, List.append_assoc]⟩
  rw [hsuf]
  simp only [if_true]
  have htake : (dumpObjChars F ++ ['\n', btick, btick, btick]).take
      ((dumpObjChars F ++ ['\n', btick, btick, btick]).length - 3) =
      dumpObjChars F ++ ['\n'] := by
    have hsplit : dumpObjChars F ++ ['\n', btick, btick, btick] =
        (dumpObjChars F ++ ['\n']) ++ [btick, btick, btick] := by
      simp [List.append_assoc]
    rw [hsplit, List.take_left' (by simp)]
  rw [htake]
  have hfin : (dumpObjChars F ++ ['\n']) =
      (lcurl :: (dumpFieldsChars F ++ [rcurl])) ++ ['\n'] := by
    rw [dumpObjChars_shape]
  rw [hfin, stripL_clean lcurl rcurl _ _ (by decide) (by decide)
    (by intro w hw; simp at hw; subst hw; decide), ← dumpObjChars_shape]

theorem extract_dumpObj (F : List (String × String)) :
    extract_json_from_response (String.mk (dumpObjChars F)) =
      String.mk (dumpObjChars F) := by
  show String.mk (extractL (dumpObjChars F)) = String.mk (dumpObjChars F)
  rw [extractL_obj]

theorem extract_dumpObj_fenced (F : List (String × String)) :
    extract_json_from_response (fenceWrap (String.mk (dumpObjChars F))) =
      String.mk (dumpObjChars F) := by
  have hdata : (fenceWrap (String.mk (dumpObjChars F))).data =
      ("```\n".data ++ dumpObjChars F) ++ "\n```".data := by
    rw [fenceWrap]
    rw [String.data_append, String.data_append]
  show String.mk (extractL (fenceWrap (String.mk (dumpObjChars F))).data) = _
  rw [hdata, extractL_fenced]

/-! ## `parse_action` on serialized actions -/

theorem foldl_askFields (t q : String) :
    Json.obj ([("action", "ask_question"), ("target", t), ("question", q)].foldl
      (fun a kv => dictInsert a kv.1 (Json.str kv.2)) []) = askJson t q := rfl

theorem foldl_guessFields (g : String) :
    Json.obj ([("action", "guess_location"), ("location_guess", g)].foldl
      (fun a kv => dictInsert a kv.1 (Json.str kv.2)) []) = guessJson g := rfl

theorem loads_extract_ask (t q : String) :
    loads (extract_json_from_response (dumpAsk t q)) = some (askJson t q) := by
  rw [show dumpAsk t q = String.mk (dumpObjChars
    [("action", "ask_question"), ("target", t), ("question", q)]) from rfl]
  rw [extract_dumpObj, loads_mk_dumpObj]
  rw [show (("action", "ask_question") :: [("target", t), ("question", q)]) =
    [("action", "ask_question"), ("target", t), ("question", q)] from rfl]
  rw [foldl_askFields]

theorem loads_extract_ask_fenced (t q : String) :
    loads (extract_json_from_response (fenceWrap (dumpAsk t q))) =
      some (askJson t q) := by
  rw [show dumpAsk t q = String.mk (dumpObjChars
    [("action", "ask_question"), ("target", t), ("question", q)]) from rfl]
  rw [extract_dumpObj_fenced, loads_mk_dumpObj]
  rw [show (("action", "ask_question") :: [("target", t), ("question", q)]) =
    [("action", "ask_question"), ("target", t), ("question", q)] from rfl]
  rw [foldl_askFields]

theorem loads_extract_guess (g : String) :
    loads (extract_json_from_response (dumpGuess g)) = some (guessJson g) := by
  rw [show dumpGuess g = String.mk (dumpObjChars
    [("action", "guess_location"), ("location_guess", g)]) from rfl]
  rw [extract_dumpObj, loads_mk_dumpObj]
  rw [show (("action", "guess_location") :: [("location_guess", g)]) =
    [("action", "guess_location"), ("location_guess", g)] from rfl]
  rw [foldl_guessFields]

theorem loads_extract_guess_fenced (g : String) :
    loads (extract_json_from_response (fenceWrap (dumpGuess g))) =
      some (guessJson g) := by
  rw [show dumpGuess g = String.mk (dumpObjChars
    [("action", "guess_location"), ("location_guess", g)]) from rfl]
  rw [extract_dumpObj_fenced, loads_mk_dumpObj]
  rw [show (("action", "guess_location") :: [("location_guess", g)]) =
    [("action", "guess_location"), ("location_guess", g)] from rfl]
  rw [foldl_guessFields]

theorem parse_action_ask_of (s t q : String) (b : Bool)
    (hs : loads (extract_json_from_response s) = some (askJson t q)) :
    parse_action s b = Except.ok (some (askJson t q)) := by
  rw [parse_action.eq_def, hs]
  cases b <;> rfl

theorem parse_action_guess_of (s g : String)
    (hs : loads (extract_json_from_response s) = some (guessJson g)) :
    parse_action s true = Except.ok (some (guessJson g)) := by
  rw [parse_action.eq_def, hs]
  rfl

/-! ## Role assignment and vote collection -/

theorem filter_beq_of_nodup (l : List String) (a : String) (hnd : l.Nodup)
    (ha : a ∈ l) : l.filter (fun x => x == a) = [a] := by
  induction l with
  | nil => simp at ha
  | cons x xs ih =>
    rw [List.filter_cons]
    rcases List.mem_cons.mp ha with rfl | hmem
    · rw [if_pos (by simp)]
      have hnotin : a ∉ xs := (List.nodup_cons.mp hnd).1
      have hnil : xs.filter (fun y => y == a) = [] := by
        rw [List.filter_eq_nil_iff]
        intro b hb
        simp only [beq_iff_eq]
        intro hba
        exact hnotin (hba ▸ hb)
      rw [hnil]
    · have hx : x ∉ xs := (List.nodup_cons.mp hnd).1
      have hxa : ¬ (x == a) = true := by
        simp only [beq_iff_eq]
        intro hxa
        exact hx (hxa ▸ hmem)
      rw [if_neg hxa]
      exact ih (List.nodup_cons.mp hnd).2 hmem

theorem assign_roles_filter_spy (l : List String) (i : Nat) (h : i < l.length)
    (hnd : l.Nodup) :
    (assign_roles l i).filter (fun p => p.2 == "spy") = [(l.getD i "", "spy")] := by
  rw [assign_roles]
  rw [List.filter_map]
  have hmem : l.getD i "" ∈ l := by
    rw [List.getD_eq_getElem l "" h]
    exact List.getElem_mem h
  have hcong : l.filter ((fun p : String × String => p.2 == "spy") ∘
      (fun name => (name, if name == l.getD i "" then "spy" else "non-spy"))) =
      l.filter (fun x => x == l.getD i "") := by
    apply List.filter_congr
    intro x _
    by_cases hx : x == l.getD i ""
    · simp [hx]
    · simp [hx]
  rw [hcong, filter_beq_of_nodup l _ hnd hmem]
  simp

theorem get_spy_assign (l : List String) (i : Nat) (h : i < l.length)
    (hnd : l.Nodup) :
    get_spy (assign_roles l i) = Except.ok (l.getD i "") := by
  rw [get_spy.eq_def, assign_roles_filter_spy l i h hnd]
  rfl

theorem get_non_spies_assign (l : List String) (i : Nat) (h : i < l.length)
    (hnd : l.Nodup) :
    get_non_spies (assign_roles l i) = l.filter (fun n => n != l.getD i "") := by
  rw [get_non_spies, assign_roles, List.filter_map]
  have hcong : l.filter ((fun p : String × String => p.2 == "non-spy") ∘
      (fun name => (name, if name == l.getD i "" then "spy" else "non-spy"))) =
      l.filter (fun n => n != l.getD i "") := by
    apply List.filter_congr
    intro x _
    by_cases hx : x = l.getD i ""
    · subst hx
      simp
    · simp only [List.getD_eq_getElem?_getD] at hx
      simp [hx]
  rw [hcong, List.map_map]
  have : ((fun p : String × String => p.1) ∘
      (fun name => (name, if name == l.getD i "" then "spy" else "non-spy"))) = id := by
    funext x
    rfl
  rw [this, List.map_id]

theorem incrVote_map (participants : List String) (cnt : String → Nat)
    (vote : String) :
    incrVote (participants.map (fun p => (p, cnt p))) vote =
      participants.map (fun p => (p, if p == vote then cnt p + 1 else cnt p)) := by
  rw [incrVote, List.map_map]
  apply List.map_congr_left
  intro p _
  by_cases hp : p == vote
  · simp only [Function.comp_apply, hp, if_pos rfl]
    simp at hp
    simp [hp]
  · simp only [Function.comp_apply]
    simp at hp
    simp [hp]

theorem collect_votes_loop_spec (env : Env) (choices : List String)
    (script : String → String)
    (Hvote : ∀ v, env.oracle.voteResp v = Except.ok (script v)) :
    ∀ (voters : List String) (cnt : String → Nat),
      collect_votes_loop env choices voters
          (env.participants.map (fun p => (p, cnt p))) =
        Except.ok (env.participants.map (fun p => (p, cnt p +
            (voters.filter (fun v => pyStrip (script v) == p)).length)),
          voters.map (fun v => Event.votePrompt v choices)) := by
  intro voters
  induction voters with
  | nil =>
    intro cnt
    rw [collect_votes_loop.eq_def]
    simp
  | cons v rest ih =>
    intro cnt
    rw [collect_votes_loop.eq_def]
    simp only [Hvote v]
    by_cases hmem : env.participants.contains (pyStrip (script v))
    · rw [if_pos hmem, incrVote_map]
      rw [ih (fun p => if p == pyStrip (script v) then cnt p + 1 else cnt p)]
      simp only [List.map_cons]
      have hmap : env.participants.map (fun p =>
          (p, (if p == pyStrip (script v) then cnt p + 1 else cnt p) +
            (rest.filter (fun w => pyStrip (script w) == p)).length)) =
          env.participants.map (fun p => (p, cnt p +
            ((v :: rest).filter (fun w => pyStrip (script w) == p)).length)) := by
        apply List.map_congr_left
        intro p _
        by_cases hp : pyStrip (script v) = p
        · simp [List.filter_cons, hp]
          omega
        · have hp' : ¬ (p = pyStrip (script v)) := fun hq => hp hq.symm
          simp [List.filter_cons, hp, hp']
      rw [hmap]
    · rw [if_neg hmem]
      rw [ih cnt]
      simp only [List.map_cons]
      have hnotin : pyStrip (script v) ∉ env.participants := by
        simpa using hmem
      have hmap : env.participants.map (fun p => (p, cnt p +
          (rest.filter (fun w => pyStrip (script w) == p)).length)) =
          env.participants.map (fun p => (p, cnt p +
            ((v :: rest).filter (fun w => pyStrip (script w) == p)).length)) := by
        apply List.map_congr_left
        intro p hp
        have hpv : ¬ (pyStrip (script v) = p) := fun hq => hnotin (hq ▸ hp)
        simp [List.filter_cons, hpv]
      rw [hmap]

theorem collect_votes_spec (env : Env) (i : Nat) (script : String → String)
    (hi : i < env.participants.length) (hnd : env.participants.Nodup)
    (Hvote : ∀ v, env.oracle.voteResp v = Except.ok (script v)) :
    collect_votes env (assign_roles env.participants i) =
      Except.ok (env.participants.map (fun p => (p,
          ((env.participants.filter (fun n => n != env.participants.getD i ""))
            |>.filter (fun v => pyStrip (script v) == p)).length)),
        (env.participants.filter (fun n => n != env.participants.getD i "")).map
          (fun v => Event.votePrompt v
            (env.participants.filter (fun n => n != env.participants.getD i "")))) := by
  rw [collect_votes, get_non_spies_assign env.participants i hi hnd,
    get_spy_assign env.participants i hi hnd]
  simp only [get_other_players]
  have hseed : env.participants.map (fun player => (player, 0)) =
      env.participants.map (fun p => (p, (fun _ : String => 0) p)) := rfl
  rw [hseed, collect_votes_loop_spec env _ script Hvote _ (fun _ => 0)]
  simp only [Nat.zero_add]

theorem handle_action_guess_eq (env : Env) (actor g : String)
    (kvs : List (String × Json)) (st : St)
    (hact : jlookup kvs "action" = some (Json.str "guess_location"))
    (hg : jlookup kvs "location_guess" = some (Json.str g)) :
    handle_action env actor (Json.obj kvs) st =
      (if pyLower g == pyLower env.location then
        Except.ok ({ st with gameOver := true, spyWin := true },
          [Event.correctGuessBroadcast actor g])
      else Except.ok ({ st with gameOver := true, spyWin := false }, [])) := by
  rw [handle_action.eq_def]
  simp only [hact, hg]

theorem run_action_round_stop (env : Env) (roles : List (String × String))
    (st : St) (hgo : st.gameOver = true) :
    run_action_round env roles st = Except.ok (st, []) := by
  cases roles with
  | nil => rfl
  | cons p rest =>
    obtain ⟨n, r⟩ := p
    rw [run_action_round.eq_def]
    simp only [hgo, if_true]

theorem play_loop_stop (env : Env) (roles : List (String × String))
    (fuel : Nat) (st : St) (hgo : st.gameOver = true) :
    play_loop env roles fuel st = Except.ok (st, [], []) := by
  cases fuel with
  | zero => rfl
  | succ f =>
    simp only [play_loop]
    rw [if_neg (by simp [hgo])]

theorem handle_action_non_guess (env : Env) (actor : String)
    (kvs : List (String × Json)) (st : St)
    (hng : jlookup kvs "action" ≠ some (Json.str "guess_location"))
    (Hans : ∀ t a q, ∃ s, env.oracle.answerResp t a q = Except.ok s) :
    ∃ evs, handle_action env actor (Json.obj kvs) st = Except.ok (st, evs) := by
  rcases hact : jlookup kvs "action" with _ | j
  · refine ⟨[], ?_⟩
    rw [handle_action.eq_def]
    simp only [hact]
  · cases j with
    | str s =>
      by_cases hs1 : s = "ask_question"
      · subst hs1
        rcases htgt : jlookup kvs "target" with _ | t
        · refine ⟨[], ?_⟩
          rw [handle_action.eq_def]
          simp only [hact, htgt]
        · cases t with
          | str target =>
            by_cases hc : env.participants.contains target
            · obtain ⟨a, ha⟩ :=
                Hans target actor (pyStrOfJson ((jlookup kvs "question").getD Json.null))
              refine ⟨[Event.qaBroadcast actor target
                (pyStrOfJson ((jlookup kvs "question").getD Json.null)) a], ?_⟩
              rw [handle_action.eq_def]
              simp only [hact, htgt, hc, if_true, ha]
            · refine ⟨[], ?_⟩
              rw [handle_action.eq_def]
              simp only [hact, htgt, hc, if_false]
              rfl
          | null =>
            refine ⟨[], ?_⟩
            rw [handle_action.eq_def]
            simp only [hact, htgt]
          | bool b =>
            refine ⟨[], ?_⟩
            rw [handle_action.eq_def]
            simp only [hact, htgt]
          | num raw =>
            refine ⟨[], ?_⟩
            rw [handle_action.eq_def]
            simp only [hact, htgt]
          | arr items =>
            refine ⟨[], ?_⟩
            rw [handle_action.eq_def]
            simp only [hact, htgt]
          | obj flds =>
            refine ⟨[], ?_⟩
            rw [handle_action.eq_def]
            simp only [hact, htgt]
      · by_cases hs2 : s = "guess_location"
        · exact absurd (hs2 ▸ hact) hng
        · refine ⟨[], ?_⟩
          rw [handle_action.eq_def]
          simp only [hact]
          simp [hs1, hs2]
    | null =>
      refine ⟨[], ?_⟩
      rw [handle_action.eq_def]
      simp only [hact]
    | bool b =>
      refine ⟨[], ?_⟩
      rw [handle_action.eq_def]
      simp only [hact]
    | num raw =>
      refine ⟨[], ?_⟩
      rw [handle_action.eq_def]
      simp only [hact]
    | arr items =>
      refine ⟨[], ?_⟩
      rw [handle_action.eq_def]
      simp only [hact]
    | obj flds =>
      refine ⟨[], ?_⟩
      rw [handle_action.eq_def]
      simp only [hact]

theorem process_spy_action_ok (env : Env) (n : String) (st : St)
    (hok : OracleOk env) :
    ∃ evs, process_spy_action env n st = Except.ok (st, evs) := by
  obtain ⟨s, hs, hfa⟩ := hok.2.2 st.round n
  rcases hfa true with hnone | ⟨kvs, hsome, hng⟩
  · refine ⟨[Event.turn n], ?_⟩
    rw [process_spy_action.eq_def]
    simp only [hs, hnone]
  · obtain ⟨evs, hh⟩ := handle_action_non_guess env n kvs st hng hok.2.1
    refine ⟨Event.turn n :: evs, ?_⟩
    rw [process_spy_action.eq_def]
    simp only [hs, hsome, hh]

theorem process_non_spy_action_ok (env : Env) (n : String) (st : St)
    (hok : OracleOk env) :
    ∃ evs, process_non_spy_action env n st = Except.ok (st, evs) := by
  obtain ⟨s, hs, hfa⟩ := hok.2.2 st.round n
  rcases hfa false with hnone | ⟨kvs, hsome, hng⟩
  · refine ⟨[Event.turn n], ?_⟩
    rw [process_non_spy_action.eq_def]
    simp only [hs, hnone]
  · obtain ⟨evs, hh⟩ := handle_action_non_guess env n kvs st hng hok.2.1
    refine ⟨Event.turn n :: evs, ?_⟩
    rw [process_non_spy_action.eq_def]
    simp only [hs, hsome, hh]

theorem run_action_round_ok (env : Env) (hok : OracleOk env) :
    ∀ (roles : List (String × String)) (st : St), st.gameOver = false →
      ∃ evs, run_action_round env roles st = Except.ok (st, evs) := by
  intro roles
  induction roles with
  | nil => exact fun st _ => ⟨[], rfl⟩
  | cons p rest ih =>
    intro st hgo
    obtain ⟨n, r⟩ := p
    rw [run_action_round.eq_def]
    simp only [hgo, if_false]
    by_cases hr : (r == "spy") = true
    · rw [if_pos hr]
      obtain ⟨evs1, h1⟩ := process_spy_action_ok env n st hok
      obtain ⟨evs2, h2⟩ := ih st hgo
      refine ⟨evs1 ++ evs2, ?_⟩
      simp only [h1, h2]
      rfl
    · rw [if_neg hr]
      obtain ⟨evs1, h1⟩ := process_non_spy_action_ok env n st hok
      obtain ⟨evs2, h2⟩ := ih st hgo
      refine ⟨evs1 ++ evs2, ?_⟩
      simp only [h1, h2]
      rfl

theorem send_initial_prompts_ok (env : Env)
    (hinit : ∀ n, ∃ s, env.oracle.initResp n = Except.ok s) :
    ∀ roles : List (String × String),
      send_initial_prompts env roles =
        Except.ok (roles.map (fun p => Event.initSent p.1)) := by
  intro roles
  induction roles with
  | nil => rfl
  | cons p rest ih =>
    obtain ⟨n, r⟩ := p
    obtain ⟨s, hs⟩ := hinit n
    rw [send_initial_prompts.eq_def]
    simp only [hs, ih, List.map_cons]

theorem play_loop_spec (env : Env) (roles : List (String × String))
    (hok : OracleOk env) :
    ∀ (fuel : Nat) (st : St), st.gameOver = false →
      st.round ≤ env.maxRounds → env.maxRounds - st.round ≤ fuel →
      ∃ evs, play_loop env roles fuel st =
        Except.ok (⟨env.maxRounds, false, st.spyWin⟩, evs,
          List.range' st.round (env.maxRounds - st.round)) := by
  intro fuel
  induction fuel with
  | zero =>
    intro st hgo hle hfe
    obtain ⟨rd, go, sw⟩ := st
    have hgo' : go = false := hgo
    subst hgo'
    have hrd : rd = env.maxRounds := by
      simp only [St.round] at hle hfe
      omega
    subst hrd
    refine ⟨[], ?_⟩
    simp only [St.round, Nat.sub_self, List.range']
    rfl
  | succ f ih =>
    intro st hgo hle hfe
    obtain ⟨rd, go, sw⟩ := st
    have hgo' : go = false := hgo
    subst hgo'
    simp only [play_loop]
    by_cases hlt : rd < env.maxRounds
    · rw [if_pos ⟨hlt, trivial⟩]
      have hcount : env.maxRounds - rd = (env.maxRounds - (rd + 1)) + 1 := by
        simp only [St.round] at hle ⊢
        omega
      by_cases h0 : rd = 0
      · rw [if_pos h0]
        rw [send_initial_prompts_ok env hok.1 roles]
        obtain ⟨evsF, hF⟩ := ih ⟨rd + 1, false, sw⟩ rfl (by exact hlt) (by
          simp only [St.round] at hfe ⊢
          omega)
        simp only [hF]
        refine ⟨roles.map (fun p => Event.initSent p.1) ++ evsF, ?_⟩
        rw [hcount]
        rfl
      · rw [if_neg h0]
        obtain ⟨evs1, h1⟩ := run_action_round_ok env hok roles ⟨rd, false, sw⟩ rfl
        simp only [h1]
        obtain ⟨evsF, hF⟩ := ih ⟨rd + 1, false, sw⟩ rfl (by exact hlt) (by
          simp only [St.round] at hfe ⊢
          omega)
        simp only [hF]
        refine ⟨evs1 ++ evsF, ?_⟩
        rw [hcount]
        rfl
    · rw [if_neg (fun hc => hlt hc.1)]
      have hrd : rd = env.maxRounds := by
        simp only [St.round] at hle
        omega
      subst hrd
      refine ⟨[], ?_⟩
      simp only [St.round, Nat.sub_self, List.range']

theorem end_game_of_votes (env : Env) (roles : List (String × String))
    (st : St) (spy : String) (tally : List (String × Nat)) (evs : List Event)
    (hspy : get_spy roles = Except.ok spy)
    (hcv : collect_votes env roles = Except.ok (tally, evs)) :
    end_game env roles st =
      (if ((tally.filter (fun p => p.2 == maxVotes tally)).map
            (fun p => p.1)).head? == some spy then
        Except.ok (build_game_result "non-spies" spy env.participants "vote"
            ("The non-spies correctly identified " ++ spy
              ++ " as the spy! Non-spies win!")
            (((tally.filter (fun p => p.2 == maxVotes tally)).map
              (fun p => p.1)).head?) (some tally),
          { st with spyWin := false },
          evs ++ [Event.resultBroadcast ("The non-spies correctly identified "
            ++ spy ++ " as the spy! Non-spies win!")])
      else
        Except.ok (build_game_result "spy" spy env.participants "vote"
            ("The non-spies voted for "
              ++ pyOptStr (((tally.filter (fun p => p.2 == maxVotes tally)).map
                (fun p => p.1)).head?)
              ++ ", but " ++ spy ++ " was actually the spy! Spy wins!")
            (((tally.filter (fun p => p.2 == maxVotes tally)).map
              (fun p => p.1)).head?) (some tally),
          { st with spyWin := true },
          evs ++ [Event.resultBroadcast ("The non-spies voted for "
            ++ pyOptStr (((tally.filter (fun p => p.2 == maxVotes tally)).map
              (fun p => p.1)).head?)
            ++ ", but " ++ spy ++ " was actually the spy! Spy wins!")])) := by
  rw [end_game.eq_def]
  simp only [hspy, hcv]

theorem end_game_ok (env : Env) (roles : List (String × String)) (st : St)
    (spy : String) (tally : List (String × Nat)) (evs : List Event)
    (hspy : get_spy roles = Except.ok spy)
    (hcv : collect_votes env roles = Except.ok (tally, evs)) :
    ∃ res st2 evs2, end_game env roles st = Except.ok (res, st2, evs2) := by
  rw [end_game_of_votes env roles st spy tally evs hspy hcv]
  by_cases hacc : (((tally.filter (fun p => p.2 == maxVotes tally)).map
      (fun p => p.1)).head? == some spy) = true
  · rw [if_pos hacc]
    exact ⟨_, _, _, rfl⟩
  · rw [if_neg hacc]
    exact ⟨_, _, _, rfl⟩

theorem play_game_iters (env : Env) (i : Nat) (script : String → String)
    (hok : OracleOk env) (hi : i < env.participants.length)
    (hnd : env.participants.Nodup)
    (Hvote : ∀ v, env.oracle.voteResp v = Except.ok (script v)) :
    ∃ res st evs, play_game env (assign_roles env.participants i) =
      Except.ok (res, st, evs, List.range' 0 env.maxRounds) := by
  obtain ⟨evsL, hL⟩ := play_loop_spec env (assign_roles env.participants i) hok
    (env.maxRounds + 1) ⟨0, false, false⟩ rfl (Nat.zero_le _) (by omega)
  obtain ⟨res, st2, evs2, hEG⟩ := end_game_ok env (assign_roles env.participants i)
    ⟨env.maxRounds, false, false⟩ _ _ _ (get_spy_assign env.participants i hi hnd)
    (collect_votes_spec env i script hi hnd Hvote)
  rw [play_game]
  simp only [hL, get_spy_assign env.participants i hi hnd, hEG, Nat.sub_zero]
  exact ⟨res, st2, evsL ++ evs2, rfl⟩

/-! # Claim theorems -/

/-- Claim C1 (corrected): with every messenger call succeeding and no reply an
accepted location guess, the scheduler loop runs one Init iteration at round 0
followed by action rounds numbered 1 through `maxRounds - 1` (not `maxRounds`),
one per iteration, each completed iteration incrementing the round counter by
exactly 1; the loop exhausts neither its `maxRounds + 1` fuel nor runs a round
numbered `maxRounds`: the iteration rounds are exactly
`List.range' 0 maxRounds = [0, 1, …, maxRounds - 1]` and the loop leaves the
round counter at `maxRounds`. -/
theorem c1_scheduler_rounds (env : Env) (i : Nat) (script : String → String)
    (hok : OracleOk env) (hi : i < env.participants.length)
    (hnd : env.participants.Nodup)
    (Hvote : ∀ v, env.oracle.voteResp v = Except.ok (script v)) :
    (∃ evs, play_loop env (assign_roles env.participants i) (env.maxRounds + 1)
        ⟨0, false, false⟩ =
      Except.ok (⟨env.maxRounds, false, false⟩, evs, List.range' 0 env.maxRounds)) ∧
    (∃ res st evs, play_game env (assign_roles env.participants i) =
      Except.ok (res, st, evs, List.range' 0 env.maxRounds)) := by
  constructor
  · obtain ⟨evs, h⟩ := play_loop_spec env (assign_roles env.participants i) hok
      (env.maxRounds + 1) ⟨0, false, false⟩ rfl (Nat.zero_le _) (by omega)
    rw [Nat.sub_zero] at h
    exact ⟨evs, h⟩
  · exact play_game_iters env i script hok hi hnd Hvote

theorem c1_witness :
    OracleOk envSample ∧ 0 < envSample.participants.length ∧
    envSample.participants.Nodup ∧
    ((∃ evs, play_loop envSample (assign_roles envSample.participants 0)
        (envSample.maxRounds + 1) ⟨0, false, false⟩ =
      Except.ok (⟨envSample.maxRounds, false, false⟩, evs,
        List.range' 0 envSample.maxRounds)) ∧
    (∃ res st evs, play_game envSample (assign_roles envSample.participants 0) =
      Except.ok (res, st, evs, List.range' 0 envSample.maxRounds))) := by
  have hok : OracleOk envSample :=
    ⟨fun n => ⟨"ok", rfl⟩, fun t a q => ⟨"an answer", rfl⟩,
     fun r n => ⟨"pass", rfl, fun b => Or.inl rfl⟩⟩
  exact ⟨hok, by decide, by decide,
    c1_scheduler_rounds envSample 0 (fun _ => "Alice") hok (by decide) (by decide)
      (fun v => rfl)⟩

/-- Claim C1, counterexample to the frozen wording: with `maxRounds = 1` the
loop's iteration rounds are `[0]` — the Init iteration only — so no action
round numbered `1 = maxRounds` ever runs, contradicting "action rounds
numbered 1 through M inclusive". -/
theorem c1_counterexample :
    (play_game envOneRound rolesSample).map (fun r => r.2.2.2) =
      Except.ok [0] ∧ ¬ (1 ∈ [0]) := ⟨rfl, by decide⟩

/-- Claim C2: a handled `guess_location` action with a guess matching the
location case-insensitively sets `gameOver` and `spyWin`; a mismatch sets
`gameOver` and clears `spyWin`; and once `gameOver` is set, the rest of the
current round's participants get no turn (`run_action_round` returns
immediately with no events) and no later round runs (`play_loop` exits). -/
theorem c2_guess_ends_game (env : Env) (actor g : String)
    (kvs : List (String × Json)) (roles : List (String × String))
    (fuel : Nat) (st st2 : St)
    (hact : jlookup kvs "action" = some (Json.str "guess_location"))
    (hg : jlookup kvs "location_guess" = some (Json.str g))
    (hgo : st2.gameOver = true) :
    handle_action env actor (Json.obj kvs) st =
      (if pyLower g == pyLower env.location then
        Except.ok ({ st with gameOver := true, spyWin := true },
          [Event.correctGuessBroadcast actor g])
      else Except.ok ({ st with gameOver := true, spyWin := false }, [])) ∧
    run_action_round env roles st2 = Except.ok (st2, []) ∧
    play_loop env roles fuel st2 = Except.ok (st2, [], []) :=
  ⟨handle_action_guess_eq env actor g kvs st hact hg,
   run_action_round_stop env roles st2 hgo,
   play_loop_stop env roles fuel st2 hgo⟩

theorem c2_witness :
    handle_action envSample "Alice" (Json.obj [("action", Json.str "guess_location"),
        ("location_guess", Json.str "Bank")]) ⟨1, false, false⟩ =
      Except.ok (⟨1, true, false⟩, []) ∧
    run_action_round envSample rolesSample ⟨1, true, false⟩ =
      Except.ok (⟨1, true, false⟩, []) ∧
    play_loop envSample rolesSample 3 ⟨1, true, false⟩ =
      Except.ok (⟨1, true, false⟩, [], []) := by
  obtain ⟨h1, h2, h3⟩ := c2_guess_ends_game envSample "Alice" "Bank"
    [("action", Json.str "guess_location"), ("location_guess", Json.str "Bank")]
    rolesSample 3 ⟨1, false, false⟩ ⟨1, true, false⟩ rfl rfl rfl
  exact ⟨h1.trans rfl, h2, h3⟩

/-- Claim C3: after vote collection the tally maps every registered
participant (the spy included) to a count seeded at zero; the accused is the
head of the maximum-count entries in tally (= registration) order; the winner
is "non-spies" exactly when the accused equals the spy, else "spy". The
outcome is an equation in the role assignment and the voters' reply script,
hence deterministic for a fixed assignment and fixed replies. -/
theorem c3_vote_outcome (env : Env) (i : Nat) (script : String → String)
    (st : St) (hi : i < env.participants.length) (hnd : env.participants.Nodup)
    (Hvote : ∀ v, env.oracle.voteResp v = Except.ok (script v)) :
    ∃ res st2 evs tally,
      end_game env (assign_roles env.participants i) st =
        Except.ok (res, st2, evs) ∧
      tally = env.participants.map (fun p => (p,
        ((env.participants.filter (fun n => n != env.participants.getD i ""))
          |>.filter (fun v => pyStrip (script v) == p)).length)) ∧
      res.votes = some tally ∧
      res.voted_as_spy = ((tally.filter (fun p => p.2 == maxVotes tally)).map
        (fun p => p.1)).head? ∧
      res.winner = (if res.voted_as_spy == some (env.participants.getD i "")
        then "non-spies" else "spy") := by
  have hspy := get_spy_assign env.participants i hi hnd
  have hcv := collect_votes_spec env i script hi hnd Hvote
  rw [end_game_of_votes env (assign_roles env.participants i) st
    (env.participants.getD i "") _ _ hspy hcv]
  by_cases hacc : ((((env.participants.map (fun p => (p,
      ((env.participants.filter (fun n => n != env.participants.getD i ""))
        |>.filter (fun v => pyStrip (script v) == p)).length))).filter
      (fun p => p.2 == maxVotes (env.participants.map (fun p => (p,
      ((env.participants.filter (fun n => n != env.participants.getD i ""))
        |>.filter (fun v => pyStrip (script v) == p)).length))))).map
      (fun p => p.1)).head? == some (env.participants.getD i "")) = true
  · rw [if_pos hacc]
    exact ⟨_, _, _, _, rfl, rfl, rfl, rfl, (if_pos hacc).symm⟩
  · rw [if_neg hacc]
    exact ⟨_, _, _, _, rfl, rfl, rfl, rfl, (if_neg hacc).symm⟩

theorem c3_witness :
    0 < envSample.participants.length ∧ envSample.participants.Nodup ∧
    ∃ res st2 evs tally,
      end_game envSample (assign_roles envSample.participants 0) ⟨2, false, false⟩ =
        Except.ok (res, st2, evs) ∧
      tally = envSample.participants.map (fun p => (p,
        ((envSample.participants.filter
            (fun n => n != envSample.participants.getD 0 ""))
          |>.filter (fun v => pyStrip ((fun _ => "Alice") v) == p)).length)) ∧
      res.votes = some tally ∧
      res.voted_as_spy = ((tally.filter (fun p => p.2 == maxVotes tally)).map
        (fun p => p.1)).head? ∧
      res.winner = (if res.voted_as_spy == some (envSample.participants.getD 0 "")
        then "non-spies" else "spy") :=
  ⟨by decide, by decide,
   c3_vote_outcome envSample 0 (fun _ => "Alice") ⟨2, false, false⟩ (by decide)
     (by decide) (fun v => rfl)⟩

/-- Claim C4: for every non-empty participant list and every index the random
choice can return, role assignment returns one entry per registered
participant in order, assigns "spy" to exactly the chosen participant, and
"non-spy" to every other; every entry's role is one of the two. -/
theorem c4_role_assignment (l : List String) (i : Nat) (hi : i < l.length)
    (hnd : l.Nodup) :
    (assign_roles l i).map (fun p => p.1) = l ∧
    (assign_roles l i).filter (fun p => p.2 == "spy") = [(l.getD i "", "spy")] ∧
    ((assign_roles l i).filter (fun p => p.2 == "non-spy")).map (fun p => p.1) =
      l.filter (fun n => n != l.getD i "") ∧
    ∀ p ∈ assign_roles l i, p.2 = "spy" ∨ p.2 = "non-spy" := by
  refine ⟨?_, assign_roles_filter_spy l i hi hnd,
    get_non_spies_assign l i hi hnd, ?_⟩
  · rw [assign_roles, List.map_map]
    have : ((fun p : String × String => p.1) ∘ (fun name =>
        (name, if name == l.getD i "" then "spy" else "non-spy"))) = id := by
      funext x
      rfl
    rw [this, List.map_id]
  · intro p hp
    rw [assign_roles] at hp
    obtain ⟨x, hx, rfl⟩ := List.mem_map.mp hp
    by_cases h : (x == l.getD i "") = true
    · left
      show (if (x == l.getD i "") = true then "spy" else "non-spy") = "spy"
      rw [if_pos h]
    · right
      show (if (x == l.getD i "") = true then "spy" else "non-spy") = "non-spy"
      rw [if_neg h]

theorem c4_witness :
    1 < (["Alice", "Bob", "Carol"] : List String).length ∧
    (["Alice", "Bob", "Carol"] : List String).Nodup ∧
    ((assign_roles ["Alice", "Bob", "Carol"] 1).map (fun p => p.1) =
        ["Alice", "Bob", "Carol"] ∧
      (assign_roles ["Alice", "Bob", "Carol"] 1).filter (fun p => p.2 == "spy") =
        [((["Alice", "Bob", "Carol"] : List String).getD 1 "", "spy")] ∧
      ((assign_roles ["Alice", "Bob", "Carol"] 1).filter
          (fun p => p.2 == "non-spy")).map (fun p => p.1) =
        (["Alice", "Bob", "Carol"] : List String).filter
          (fun n => n != (["Alice", "Bob", "Carol"] : List String).getD 1 "") ∧
      ∀ p ∈ assign_roles ["Alice", "Bob", "Carol"] 1,
        p.2 = "spy" ∨ p.2 = "non-spy") :=
  ⟨by decide, by decide, c4_role_assignment ["Alice", "Bob", "Carol"] 1
    (by decide) (by decide)⟩

/-- Claim C5 (code bug): `parse_action` does return `None` for an unknown
action tag (either role), for a `guess_location` from a non-spy, and for
non-JSON text — but on text that decodes to valid JSON that is not an object
(here `"[]"`), the spy path calls `.get` on a list and raises an uncaught
`AttributeError` instead of returning `None`; only `json.JSONDecodeError` and
`ValidationError` are caught. -/
theorem c5_parse_rejections :
    parse_action "not json at all" true = Except.ok none ∧
    parse_action "not json at all" false = Except.ok none ∧
    parse_action (String.mk (dumpObjChars [("action", "dance")])) true =
      Except.ok none ∧
    parse_action (String.mk (dumpObjChars [("action", "dance")])) false =
      Except.ok none ∧
    parse_action (dumpGuess "Beach") false = Except.ok none ∧
    parse_action "[]" false = Except.ok none ∧
    parse_action "[]" true = Except.error RunErr.attrError :=
  ⟨rfl, rfl, rfl, rfl, rfl, rfl, rfl⟩

/-- Claim C6: serializing an `AskQuestion` or `GuessLocation` action to its
JSON wire format and parsing it back with a permitting role — bare or wrapped
in a triple-backtick fence line above and below — returns exactly the decoded
object with all fields unchanged. -/
theorem c6_round_trip (t q g : String) (b : Bool) :
    parse_action (dumpAsk t q) b = Except.ok (some (askJson t q)) ∧
    parse_action (fenceWrap (dumpAsk t q)) b = Except.ok (some (askJson t q)) ∧
    parse_action (dumpGuess g) true = Except.ok (some (guessJson g)) ∧
    parse_action (fenceWrap (dumpGuess g)) true = Except.ok (some (guessJson g)) :=
  ⟨parse_action_ask_of (dumpAsk t q) t q b (loads_extract_ask t q),
   parse_action_ask_of (fenceWrap (dumpAsk t q)) t q b (loads_extract_ask_fenced t q),
   parse_action_guess_of (dumpGuess g) g (loads_extract_guess g),
   parse_action_guess_of (fenceWrap (dumpGuess g)) g (loads_extract_guess_fenced g)⟩

/-- Claim C7 (corrected): the pydantic validators constrain only presence and
type, not emptiness: an `ask_question` whose `target` and `question` are any
strings — the empty string included — is accepted, as is a `guess_location`
with an empty `location_guess`; rejection happens for a missing field or a
non-string field. -/
theorem c7_empty_fields_accepted (t q g : String) (b : Bool) :
    parse_action (dumpAsk t q) b = Except.ok (some (askJson t q)) ∧
    parse_action (dumpGuess g) true = Except.ok (some (guessJson g)) ∧
    validateAskQuestion (askJson t q) = true ∧
    validateGuessLocation (guessJson g) = true ∧
    validateAskQuestion (Json.obj [("action", Json.str "ask_question")]) = false ∧
    validateGuessLocation (Json.obj [("action", Json.str "guess_location"),
      ("location_guess", Json.num "3")]) = false :=
  ⟨parse_action_ask_of (dumpAsk t q) t q b (loads_extract_ask t q),
   parse_action_guess_of (dumpGuess g) g (loads_extract_guess g),
   rfl, rfl, rfl, rfl⟩

/-- Claim C7, counterexample to the frozen wording: the serialized
`ask_question` with empty `target` and `question` is accepted (returned as a
parsed dict), not rejected as `None`; likewise an empty `location_guess`. -/
theorem c7_counterexample :
    parse_action (dumpAsk "" "") false = Except.ok (some (askJson "" "")) ∧
    parse_action (dumpGuess "") true = Except.ok (some (guessJson "")) ∧
    ¬ (parse_action (dumpAsk "" "") false = Except.ok none) := by
  refine ⟨rfl, rfl, fun h => ?_⟩
  rw [show parse_action (dumpAsk "" "") false =
    Except.ok (some (askJson "" "")) from rfl] at h
  simp at h

/-- Claim C8 (corrected, messenger modelled from the spec): a `TransportError`
from an action-turn or vote messenger call is NOT absorbed — no caller
catches it: it propagates out of `_process_spy_action` /
`_process_non_spy_action`, aborts the action round, and aborts vote
collection. -/
theorem c8_transport_aborts (env : Env) (n voter : String) (st : St)
    (rest : List (String × String)) (choices voters : List String)
    (votes : List (String × Nat)) (hgo : st.gameOver = false)
    (hfail : env.oracle.actionResp st.round n = Except.error RunErr.transport)
    (hvfail : env.oracle.voteResp voter = Except.error RunErr.transport) :
    process_spy_action env n st = Except.error RunErr.transport ∧
    process_non_spy_action env n st = Except.error RunErr.transport ∧
    run_action_round env ((n, "spy") :: rest) st = Except.error RunErr.transport ∧
    collect_votes_loop env choices (voter :: voters) votes =
      Except.error RunErr.transport := by
  have h1 : process_spy_action env n st = Except.error RunErr.transport := by
    rw [process_spy_action.eq_def]
    simp only [hfail]
  refine ⟨h1, ?_, ?_, ?_⟩
  · rw [process_non_spy_action.eq_def]
    simp only [hfail]
  · rw [run_action_round.eq_def]
    simp only [hgo, if_false]
    rw [if_pos (show ("spy" == "spy") = true from rfl)]
    simp only [h1]
    rfl
  · rw [collect_votes_loop.eq_def]
    simp only [hvfail]

theorem c8_witness :
    envBothFail.oracle.actionResp 1 "Alice" = Except.error RunErr.transport ∧
    envBothFail.oracle.voteResp "Bob" = Except.error RunErr.transport ∧
    (process_spy_action envBothFail "Alice" ⟨1, false, false⟩ =
        Except.error RunErr.transport ∧
      process_non_spy_action envBothFail "Alice" ⟨1, false, false⟩ =
        Except.error RunErr.transport ∧
      run_action_round envBothFail [("Alice", "spy"), ("Bob", "non-spy")]
          ⟨1, false, false⟩ = Except.error RunErr.transport ∧
      collect_votes_loop envBothFail ["Bob", "Carol"] ["Bob", "Carol"]
          [("Alice", 0), ("Bob", 0), ("Carol", 0)] =
        Except.error RunErr.transport) :=
  ⟨rfl, rfl, c8_transport_aborts envBothFail "Alice" "Bob" ⟨1, false, false⟩
    [("Bob", "non-spy")] ["Bob", "Carol"] ["Carol"]
    [("Alice", 0), ("Bob", 0), ("Carol", 0)] rfl rfl rfl⟩

/-- Claim C8, counterexample to the frozen wording: one failed action-turn
call aborts the whole game run with the transport error (nothing is absorbed
as a forfeited turn), and one failed vote call aborts vote collection. -/
theorem c8_counterexample :
    play_game envActionFail rolesSample = Except.error RunErr.transport ∧
    collect_votes envVoteFail rolesSample = Except.error RunErr.transport ∧
    ¬ ∃ res st evs iters, play_game envActionFail rolesSample =
      Except.ok (res, st, evs, iters) := by
  refine ⟨rfl, rfl, fun ⟨res, st, evs, iters, h⟩ => ?_⟩
  rw [show play_game envActionFail rolesSample =
    Except.error RunErr.transport from rfl] at h
  exact Except.noConfusion h

/-- Claim C9 (code bug): in the green `_handle_action` an incorrect location
guess sets the flags but broadcasts nothing — no "guessed incorrectly /
location revealed" message is sent — while the sibling `src/game_env.py`
variant of `_handle_action` does broadcast it, and the correct-guess branch
of the green variant does broadcast. -/
theorem c9_incorrect_guess_no_broadcast :
    handle_action envSample "Alice" (Json.obj [("action", Json.str "guess_location"),
        ("location_guess", Json.str "Bank")]) ⟨1, false, false⟩ =
      Except.ok (⟨1, true, false⟩, []) ∧
    handle_action_root envSample "Alice" (Json.obj [("action", Json.str "guess_location"),
        ("location_guess", Json.str "Bank")]) ⟨1, false, false⟩ =
      Except.ok (⟨1, true, false⟩,
        [Event.incorrectGuessBroadcast "Alice" "Bank" "Beach"]) ∧
    handle_action envSample "Alice" (Json.obj [("action", Json.str "guess_location"),
        ("location_guess", Json.str "beach")]) ⟨1, false, false⟩ =
      Except.ok (⟨1, true, true⟩, [Event.correctGuessBroadcast "Alice" "beach"]) :=
  ⟨rfl, rfl, rfl⟩

/-- Claim C10: the vote prompt offers as choices exactly the registered
participants other than the spy, yet the tally counts any reply whose
stripped text equals any registered participant's name — the spy's own name
included — and replies matching no registered name add no count. -/
theorem c10_vote_counting (env : Env) (i : Nat) (script : String → String)
    (hi : i < env.participants.length) (hnd : env.participants.Nodup)
    (Hvote : ∀ v, env.oracle.voteResp v = Except.ok (script v)) :
    collect_votes env (assign_roles env.participants i) =
      Except.ok (env.participants.map (fun p => (p,
          ((env.participants.filter (fun n => n != env.participants.getD i ""))
            |>.filter (fun v => pyStrip (script v) == p)).length)),
        (env.participants.filter (fun n => n != env.participants.getD i "")).map
          (fun v => Event.votePrompt v
            (env.participants.filter (fun n => n != env.participants.getD i "")))) :=
  collect_votes_spec env i script hi hnd Hvote

theorem c10_witness :
    0 < envSample.participants.length ∧ envSample.participants.Nodup ∧
    collect_votes envSample rolesSample =
      Except.ok ([("Alice", 2), ("Bob", 0), ("Carol", 0)],
        [Event.votePrompt "Bob" ["Bob", "Carol"],
         Event.votePrompt "Carol" ["Bob", "Carol"]]) := by
  refine ⟨by decide, by decide, ?_⟩
  have h := c10_vote_counting envSample 0 (fun _ => "Alice") (by decide)
    (by decide) (fun v => rfl)
  exact h.trans rfl

end Spyfall
